import Mathlib

/-
Shallow embedding of the email/job classification engine of the
job-Tracker-Webapp repository.

The embedded code lives in:
  - src/app/api/email/scan/route.ts      (noise filter, status classifier,
    company/title extractors, HTML normalizer, hybrid AI/regex classifier,
    confidence scoring of the POST scan handler)
  - src/lib/job-recategorization-service.ts  (batch recategorization)
  - src/lib/ai-service.ts                (external Gemini classifier wrapper;
    its network call is modelled as an abstract outcome)

Modelling conventions:
  - JavaScript strings are modelled as Lean `String` / `List Char`; the
    relevant string operations (toLowerCase, includes, trim, split, join,
    replace with the concrete regexes appearing in the source) are
    implemented explicitly below with JavaScript semantics for the ASCII
    range (all pattern tables in the source are ASCII).
  - JavaScript numbers are modelled as exact rationals; every comparison
    the code performs is far from the rounding error of doubles.
  - Each JavaScript regex used by the source is implemented either as a
    bespoke matcher (the HTML-cleaning replaces, the sender-domain match)
    or as a value of a small regex AST `Rx` executed by a backtracking
    engine with JavaScript ordering (leftmost position, alternation in
    written order, greedy/lazy quantifiers).  Global `replace` is a scan
    that substitutes every non-overlapping match, resuming after the
    replacement, which is not rescanned.
  - `async` functions perform no concurrency here; they are modelled as
    pure functions, with the external AI call abstracted into an explicit
    outcome argument (success / null / thrown exception).
-/

namespace JobTracker

/-! ### JavaScript string primitives -/

/-- ASCII lower-casing of a character, as `String.prototype.toLowerCase`
acts on the ASCII range. -/
def lowerChar (c : Char) : Char :=
  if 65 ≤ c.toNat ∧ c.toNat ≤ 90 then Char.ofNat (c.toNat + 32) else c

/-- ASCII upper-casing of a character, as `String.prototype.toUpperCase`
acts on the ASCII range. -/
def upperChar (c : Char) : Char :=
  if 97 ≤ c.toNat ∧ c.toNat ≤ 122 then Char.ofNat (c.toNat - 32) else c

/-- Whitespace class of JavaScript regexes (ASCII part): space, tab,
line feed, vertical tab, form feed, carriage return. -/
def isWsChar (c : Char) : Bool :=
  c == ' ' || c == '\t' || c == '\n' || c == '\r' ||
  c == Char.ofNat 11 || c == Char.ofNat 12

def isAsciiUpper (c : Char) : Bool := 65 ≤ c.toNat && c.toNat ≤ 90
def isAsciiLower (c : Char) : Bool := 97 ≤ c.toNat && c.toNat ≤ 122
def isAsciiLetter (c : Char) : Bool := isAsciiUpper c || isAsciiLower c
def isAsciiDigit (c : Char) : Bool := 48 ≤ c.toNat && c.toNat ≤ 57

/-- Word-character class of JavaScript regexes: letters, digits, underscore. -/
def isWordChar (c : Char) : Bool := isAsciiLetter c || isAsciiDigit c || c == '_'

def lowerL (l : List Char) : List Char := l.map lowerChar

/-- `String.prototype.toLowerCase` (ASCII fragment). -/
def jsToLower (s : String) : String := String.mk (lowerL s.data)

/-- Does `p` occur as a prefix of `s`?  (case-sensitive) -/
def subAt : List Char → List Char → Bool
  | [], _ => true
  | _ :: _, [] => false
  | c :: p, d :: s => if c = d then subAt p s else false

/-- Does `p` occur as a contiguous substring of `s`?  This is the
semantics of `String.prototype.includes`. -/
def hasSub (p : List Char) : List Char → Bool
  | [] => subAt p []
  | c :: s => subAt p (c :: s) || hasSub p s

/-- `s.includes(pat)` on JavaScript strings. -/
def strIncludes (s pat : String) : Bool := hasSub pat.data s.data

/-- `String.prototype.trim` (ASCII whitespace fragment). -/
def trimL (l : List Char) : List Char :=
  ((l.dropWhile isWsChar).reverse.dropWhile isWsChar).reverse

def jsTrim (s : String) : String := String.mk (trimL s.data)

/-- `s.split(sep)` for a single-character separator, JavaScript
semantics (empty fields are kept). -/
def splitChar (sep : Char) : List Char → List (List Char)
  | [] => [[]]
  | c :: t =>
    match splitChar sep t with
    | [] => [[]]
    | w :: ws => if c = sep then [] :: w :: ws else (c :: w) :: ws

/-- `parts.join(sep)` for a single-character separator. -/
def joinWith (sep : Char) : List (List Char) → List Char
  | [] => []
  | w :: ws =>
    match ws with
    | [] => w
    | _ :: _ => w ++ sep :: joinWith sep ws

/-- `s.split(/\s+/)`: fields between whitespace runs; a leading
whitespace run yields a leading empty field, as in JavaScript. -/
def splitWsRuns : List Char → List (List Char)
  | [] => [[]]
  | c :: t =>
    match splitWsRuns t with
    | [] => [[]]
    | w :: ws =>
      if isWsChar c then
        match t with
        | [] => [] :: w :: ws
        | d :: _ => if isWsChar d then w :: ws else [] :: w :: ws
      else (c :: w) :: ws

/-! ### Lifecycle status and analysis method enums -/

/-- The five lifecycle statuses of the tracker. -/
inductive JobStatus where
  | applied
  | interviewing
  | offered
  | rejected
  | ghosted
deriving DecidableEq, Repr

/-- The analysis-method tags appearing across the code base
(scan route: ai / regex; recategorization: ai / regex / manual /
insufficient_data). -/
inductive AnalysisMethod where
  | ai
  | regex
  | manual
  | insufficientData
deriving DecidableEq, Repr

/-! ### Noise filter: isJobBoardNotification (scan/route.ts lines 6-133) -/

/-- Job board notification patterns to filter out. -/
def notificationPatterns : List String :=
  [ "jobs you may be interested in"
  , "recommended for you"
  , "new jobs posted"
  , "job alert"
  , "daily job digest"
  , "weekly job digest"
  , "jobs matching your preferences"
  , "similar jobs to ones you"
  , "jobs like"
  , "jobs near you"
  , "trending jobs"
  , "premium job insights"
  , "jobs matching your search"
  , "recommended jobs"
  , "jobs from your search"
  , "new jobs on indeed"
  , "indeed job alert"
  , "similar to jobs you"
  , "jobs posted today"
  , "more jobs like"
  , "jobs for you"
  , "personalized job recommendations"
  , "glassdoor job alert"
  , "companies hiring"
  , "salary insights"
  , "ziprecruiter job alert"
  , "jobs posted near"
  , "apply to these jobs"
  , "one-click apply"
  , "bebee job alert"
  , "bebee job notification"
  , "new jobs on bebee"
  , "bebee professional network"
  , "bebee opportunities"
  , "newsletter"
  , "weekly update"
  , "digest"
  , "subscription"
  , "unsubscribe"
  , "marketing"
  , "promotional"
  , "sponsored"
  , "advertisement"
  , "ad:"
  , "jobs you might like"
  , "might interest you"
  , "explore opportunities"
  , "browse jobs"
  , "view all jobs"
  , "see more jobs"
  , "apply now to"
  , "quick apply"
  , "easy apply" ]

/-- Notification sender-address patterns. -/
def senderPatterns : List String :=
  [ "notifications@"
  , "alerts@"
  , "digest@"
  , "newsletter@"
  , "updates@"
  , "marketing@"
  , "jobs@indeed"
  , "jobs@linkedin"
  , "alerts@glassdoor"
  , "notification@"
  , "automated@"
  , "bebee"
  , "@bebee.com"
  , "jobs@bebee" ]

/-- The application-confirmation override of the noise filter
(scan/route.ts lines 97-108). -/
def isApplicationConfirmation (contentLower : String) : Bool :=
  strIncludes contentLower "thank you for applying" ||
  strIncludes contentLower "thanks for applying" ||
  strIncludes contentLower "application received" ||
  strIncludes contentLower "we have received your application" ||
  strIncludes contentLower "your application has been received" ||
  (strIncludes contentLower "thank you for your interest" &&
    (strIncludes contentLower "application" ||
     strIncludes contentLower "position" ||
     strIncludes contentLower "role"))

/-- scan/route.ts `isJobBoardNotification(content, from, subject)`.
The source's `from` parameter is named `fromAddr` here because `from` is
a Lean keyword. -/
def isJobBoardNotification (content fromAddr subject : String) : Bool :=
  let contentLower := jsToLower content
  let fromLower := jsToLower fromAddr
  let subjectLower := jsToLower subject
  if isApplicationConfirmation contentLower then
    false
  else
    let isNotificationSender :=
      senderPatterns.any (fun p => strIncludes fromLower p)
    let hasNotificationPattern :=
      notificationPatterns.any (fun p =>
        strIncludes contentLower p || strIncludes subjectLower p)
    let hasAutomatedIndicators :=
      strIncludes contentLower "this is an automated" ||
      strIncludes contentLower "do not reply to this" ||
      strIncludes contentLower "automatically generated" ||
      strIncludes subjectLower "[automated]" ||
      strIncludes subjectLower "auto:"
    isNotificationSender || hasNotificationPattern || hasAutomatedIndicators

/-! ### Status classifier: determineStatus (scan/route.ts lines 454-683) -/

def rejectionIndicators : List String :=
  [ "we regret to inform you"
  , "we regret to inform"
  , "sorry to inform you"
  , "sorry to inform"
  , "we are unable to"
  , "we cannot"
  , "we will not be"
  , "we have decided not to"
  , "we have chosen to"
  , "we are moving forward with other candidates"
  , "moving forward with other candidates"
  , "we are proceeding with other candidates"
  , "proceeding with other candidates"
  , "we have selected other candidates"
  , "selected other candidates"
  , "we have chosen other candidates"
  , "chosen other candidates"
  , "decided to pursue other candidates"
  , "pursue other candidates"
  , "going with another candidate"
  , "chosen another candidate"
  , "selected another candidate"
  , "not a match at this time"
  , "not the right fit"
  , "not a good fit"
  , "not the best fit"
  , "better suited candidates"
  , "more qualified candidates"
  , "stronger candidates"
  , "different direction"
  , "different path"
  , "other direction"
  , "will not be moving forward"
  , "not moving forward"
  , "will not be proceeding"
  , "not proceeding"
  , "will not be advancing"
  , "not advancing"
  , "will not be continuing"
  , "not continuing"
  , "unfortunately"
  , "regrettably"
  , "we must inform you"
  , "we have to inform you"
  , "we need to inform you"
  , "we are writing to inform you"
  , "thank you for your interest, however"
  , "thank you for your interest but"
  , "thank you for applying, however"
  , "thank you for applying but"
  , "we appreciate your interest, however"
  , "we appreciate your interest but"
  , "appreciate your time, however"
  , "appreciate your time but"
  , "position has been filled"
  , "role has been filled"
  , "job has been filled"
  , "position is no longer available"
  , "role is no longer available"
  , "job is no longer available"
  , "decided not to fill"
  , "chose not to fill"
  , "highly competitive"
  , "many qualified applicants"
  , "numerous qualified candidates"
  , "large pool of candidates"
  , "extensive candidate pool"
  , "other applicants"
  , "alternative candidates"
  , "keep your resume on file"
  , "keep you in mind for future"
  , "future opportunities"
  , "future openings"
  , "will keep your information"
  , "consider you for future"
  , "future positions"
  , "wish you the best"
  , "best of luck"
  , "success in your job search"
  , "good luck with your search"
  , "wish you success"
  , "best wishes"
  , "all the best" ]

def offerIndicators : List String :=
  [ "pleased to offer"
  , "happy to offer"
  , "excited to offer"
  , "delighted to offer"
  , "thrilled to offer"
  , "offer you the position"
  , "offer you a position"
  , "extend an offer"
  , "job offer"
  , "employment offer"
  , "offer of employment"
  , "congratulations"
  , "you have been selected"
  , "we would like to hire"
  , "we want to hire"
  , "welcome to the team"
  , "welcome aboard"
  , "offer letter"
  , "compensation package"
  , "salary offer"
  , "starting salary"
  , "benefits package"
  , "start date"
  , "first day of work"
  , "orientation date" ]

def interviewIndicators : List String :=
  [ "interview"
  , "phone screen"
  , "phone call"
  , "video call"
  , "zoom call"
  , "teams call"
  , "schedule a call"
  , "set up a call"
  , "arrange a call"
  , "technical screen"
  , "coding challenge"
  , "assessment"
  , "next round"
  , "second round"
  , "final round"
  , "meet with"
  , "speak with"
  , "chat with"
  , "discussion"
  , "conversation"
  , "would like to talk"
  , "like to speak"
  , "schedule a meeting"
  , "set up a meeting"
  , "arrange a meeting"
  , "next step"
  , "next steps"
  , "follow up"
  , "follow-up"
  , "move forward"
  , "proceed to"
  , "advance to" ]

def appliedIndicators : List String :=
  [ "application received"
  , "thank you for applying"
  , "thanks for applying"
  , "received your application"
  , "application has been received"
  , "thank you for your application"
  , "thanks for your application"
  , "application confirmation"
  , "thank you for your interest"
  , "thanks for your interest"
  , "we have received your"
  , "successfully submitted"
  , "application submitted"
  , "under review"
  , "being reviewed"
  , "review your application"
  , "reviewing your application"
  , "will review"
  , "team will review"
  , "hiring team will"
  , "will be in touch"
  , "will contact you"
  , "will reach out"
  , "will get back to you"
  , "hear from us"
  , "application status"
  , "keep you updated"
  , "update you" ]

/-- scan/route.ts `determineStatus(content)`: the four indicator sets are
consulted in order (the source's early-returning for-loops are the
first-match-wins checks below); no indicator at all defaults to applied. -/
def determineStatus (content : String) : JobStatus :=
  let contentLower := jsToLower content
  if rejectionIndicators.any (fun i => strIncludes contentLower i) then
    .rejected
  else if offerIndicators.any (fun i => strIncludes contentLower i) then
    .offered
  else if interviewIndicators.any (fun i => strIncludes contentLower i) then
    .interviewing
  else if appliedIndicators.any (fun i => strIncludes contentLower i) then
    .applied
  else
    .applied

/-! ### Text normalizer: cleanHtmlContent (scan/route.ts lines 822-871)

Each `replace` of the source is one global-replace pass: the input is
scanned left to right; at each position the stage's matcher is tried; on
success the matched span is replaced and scanning resumes after the
replacement (which is not rescanned); on failure the scan advances one
character.  Every matcher below implements exactly one of the source's
regexes. -/

/-- Apostrophe, brace and bullet characters, named to keep string
literals plain. -/
def aposChar : Char := Char.ofNat 39

def lbraceChar : Char := Char.ofNat 123

def rbraceChar : Char := Char.ofNat 125

def bulletChar : Char := Char.ofNat 8226

/-- Match a literal, case-sensitively. -/
def litCS : List Char → List Char → Option (List Char)
  | [], s => some s
  | _ :: _, [] => none
  | c :: p, d :: s => if d = c then litCS p s else none

/-- Match a literal, case-insensitively (regex `i` flag, ASCII). -/
def litCI : List Char → List Char → Option (List Char)
  | [], s => some s
  | _ :: _, [] => none
  | c :: p, d :: s => if lowerChar d = lowerChar c then litCI p s else none

/-- Lazy `[\s\S]*?` up to a case-insensitive literal: consume through the
first occurrence of `p`. -/
def findLitCI (p : List Char) : List Char → Option (List Char)
  | [] => litCI p []
  | c :: s =>
    match litCI p (c :: s) with
    | some r => some r
    | none => findLitCI p s

/-- Lazy `[\s\S]*?` up to a case-sensitive literal. -/
def findLitCS (p : List Char) : List Char → Option (List Char)
  | [] => litCS p []
  | c :: s =>
    match litCS p (c :: s) with
    | some r => some r
    | none => findLitCS p s

/-- `[^x]+` followed by the mandatory character `x`. -/
def classPlusThen (x : Char) (s : List Char) : Option (List Char) :=
  let run := s.takeWhile (fun c => c != x)
  if run.length = 0 then none
  else if run.length < s.length then some (s.drop (run.length + 1))
  else none

/-- `[^x]*` followed by the mandatory character `x`. -/
def classStarThen (x : Char) (s : List Char) : Option (List Char) :=
  let run := s.takeWhile (fun c => c != x)
  if run.length < s.length then some (s.drop (run.length + 1)) else none

/-- `[^x]+` followed by an optional `x` (regex `x?`). -/
def classPlusOpt (x : Char) (s : List Char) : Option (List Char) :=
  let run := s.takeWhile (fun c => c != x)
  if run.length = 0 then none
  else if run.length < s.length then some (s.drop (run.length + 1))
  else some []

/-- Matcher for `@import[^;]+;`. -/
def mImport (s : List Char) : Option (List Char) :=
  (litCS "@import".data s).bind (classPlusThen ';')

/-- Matcher for `<style[^>]*>[\s\S]*?<\/style>` (i). -/
def mStyleBlock (s : List Char) : Option (List Char) :=
  ((litCI "<style".data s).bind (classStarThen '>')).bind
    (findLitCI "</style>".data)

/-- Matcher for `style\s*=\s*["'][^"']*["']` (i). -/
def mStyleAttr (s : List Char) : Option (List Char) :=
  (litCI "style".data s).bind fun r =>
    match r.dropWhile isWsChar with
    | '=' :: r2 =>
      match r2.dropWhile isWsChar with
      | q :: r4 =>
        if q = '"' ∨ q = aposChar then
          let mid := r4.takeWhile (fun c => !(c == '"' || c == aposChar))
          match r4.drop mid.length with
          | q2 :: r6 => if q2 = '"' ∨ q2 = aposChar then some r6 else none
          | [] => none
        else none
      | [] => none
    | _ => none

/-- Matcher for `<script[^>]*>[\s\S]*?<\/script>` (i). -/
def mScript (s : List Char) : Option (List Char) :=
  ((litCI "<script".data s).bind (classStarThen '>')).bind
    (findLitCI "</script>".data)

/-- Matcher for `<!--[\s\S]*?-->`. -/
def mComment (s : List Char) : Option (List Char) :=
  (litCS "<!--".data s).bind (findLitCS "-->".data)

/-- Matcher for `<head[^>]*>[\s\S]*?<\/head>` (i). -/
def mHead (s : List Char) : Option (List Char) :=
  ((litCI "<head".data s).bind (classStarThen '>')).bind
    (findLitCI "</head>".data)

/-- Matcher for `<meta[^>]*>` (i). -/
def mMeta (s : List Char) : Option (List Char) :=
  (litCI "<meta".data s).bind (classStarThen '>')

/-- Matcher for `<link[^>]*>` (i). -/
def mLinkTag (s : List Char) : Option (List Char) :=
  (litCI "<link".data s).bind (classStarThen '>')

/-- Matcher for the brace-delimited CSS-rule regex. -/
def mBraces (s : List Char) : Option (List Char) :=
  match s with
  | c :: r => if c = lbraceChar then classStarThen rbraceChar r else none
  | [] => none

/-- Matcher for `name[^;]+;?` (i), used for the CSS-declaration stages
(font-family:, color:, margin:, padding:, width:, height:, -webkit-,
-ms-, mso-). -/
def mCssDecl (name : String) (s : List Char) : Option (List Char) :=
  (litCI name.data s).bind (classPlusOpt ';')

/-- Matcher for `<br\s*\/?>` (i). -/
def mBr (s : List Char) : Option (List Char) :=
  (litCI "<br".data s).bind fun r =>
    match r.dropWhile isWsChar with
    | '/' :: r2 =>
      match r2 with
      | '>' :: r3 => some r3
      | _ => none
    | '>' :: r2 => some r2
    | _ => none

/-- Matcher for `<\/p>` (i). -/
def mCloseP (s : List Char) : Option (List Char) := litCI "</p>".data s

/-- Matcher for `<p[^>]*>` (i). -/
def mOpenP (s : List Char) : Option (List Char) :=
  (litCI "<p".data s).bind (classStarThen '>')

/-- Matcher for `<div[^>]*>` (i). -/
def mOpenDiv (s : List Char) : Option (List Char) :=
  (litCI "<div".data s).bind (classStarThen '>')

/-- Matcher for `<\/div>` (i). -/
def mCloseDiv (s : List Char) : Option (List Char) := litCI "</div>".data s

/-- Matcher for `<h[1-6][^>]*>` (i). -/
def mOpenH (s : List Char) : Option (List Char) :=
  (litCI "<h".data s).bind fun r =>
    match r with
    | d :: r2 =>
      if '1' ≤ d ∧ d ≤ '6' then classStarThen '>' r2 else none
    | [] => none

/-- Matcher for `<\/h[1-6]>` (i). -/
def mCloseH (s : List Char) : Option (List Char) :=
  (litCI "</h".data s).bind fun r =>
    match r with
    | d :: '>' :: r2 => if '1' ≤ d ∧ d ≤ '6' then some r2 else none
    | _ => none

/-- Matcher for `<li[^>]*>` (i). -/
def mOpenLi (s : List Char) : Option (List Char) :=
  (litCI "<li".data s).bind (classStarThen '>')

/-- Matcher for `<\/li>` (i). -/
def mCloseLi (s : List Char) : Option (List Char) := litCI "</li>".data s

/-- Matcher for `<[^>]+>`. -/
def mAnyTag (s : List Char) : Option (List Char) :=
  match s with
  | c :: r => if c = '<' then classPlusThen '>' r else none
  | [] => none

/-- Matcher for `&[a-zA-Z0-9#]+;`. -/
def mEntGeneric (s : List Char) : Option (List Char) :=
  match s with
  | c :: r =>
    if c = '&' then
      let run := r.takeWhile (fun d =>
        isAsciiLetter d || isAsciiDigit d || d == '#')
      if run.length = 0 then none
      else
        match r.drop run.length with
        | ';' :: rest => some rest
        | _ => none
    else none
  | [] => none

/-- Matcher for `\s+`. -/
def mWsRun (s : List Char) : Option (List Char) :=
  match s with
  | c :: r => if isWsChar c then some (r.dropWhile isWsChar) else none
  | [] => none

/-- Matcher for `\n\s+`. -/
def mNlWs (s : List Char) : Option (List Char) :=
  match s with
  | '\n' :: r =>
    match r with
    | d :: _ => if isWsChar d then some (r.dropWhile isWsChar) else none
    | [] => none
  | _ => none

/-- Matcher for `\n{3,}`. -/
def mNl3 (s : List Char) : Option (List Char) :=
  let run := s.takeWhile (fun c => c == '\n')
  if 3 ≤ run.length then some (s.drop run.length) else none

/-- Fueled global-replace scan.  All matchers here consume at least one
character on success, so fuel `length + 1` is enough and the fuel-0 case
is never reached by `replaceAll`. -/
def replaceWithF (m : List Char → Option (List Char)) (rep : List Char) :
    Nat → List Char → List Char
  | 0, s => s
  | _ + 1, [] => []
  | f + 1, c :: cs =>
    match m (c :: cs) with
    | some rest => rep ++ replaceWithF m rep f rest
    | none => c :: replaceWithF m rep f cs

/-- One global `replace` pass, JavaScript semantics. -/
def replaceAll (m : List Char → Option (List Char)) (rep : List Char)
    (s : List Char) : List Char :=
  replaceWithF m rep (s.length + 1) s

/-- scan/route.ts `cleanHtmlContent(htmlContent)`: the exact sequence of
replace passes of the source, over the characters of the input, ending
with `trim`.  The `<li>` replacement is the source's bullet-plus-space
literal. -/
def cleanHtmlContent (htmlContent : String) : String :=
  if htmlContent = "" then ""
  else
    let l0 := htmlContent.data
    let l1 := replaceAll mImport [] l0
    let l2 := replaceAll mStyleBlock [] l1
    let l3 := replaceAll mStyleAttr [] l2
    let l4 := replaceAll mScript [] l3
    let l5 := replaceAll mComment [] l4
    let l6 := replaceAll mHead [] l5
    let l7 := replaceAll mMeta [] l6
    let l8 := replaceAll mLinkTag [] l7
    let l9 := replaceAll mBraces [] l8
    let l10 := replaceAll (mCssDecl "font-family:") [] l9
    let l11 := replaceAll (mCssDecl "color:") [] l10
    let l12 := replaceAll (mCssDecl "margin:") [] l11
    let l13 := replaceAll (mCssDecl "padding:") [] l12
    let l14 := replaceAll (mCssDecl "width:") [] l13
    let l15 := replaceAll (mCssDecl "height:") [] l14
    let l16 := replaceAll (mCssDecl "-webkit-") [] l15
    let l17 := replaceAll (mCssDecl "-ms-") [] l16
    let l18 := replaceAll (mCssDecl "mso-") [] l17
    let l19 := replaceAll mBr ['\n'] l18
    let l20 := replaceAll mCloseP ['\n', '\n'] l19
    let l21 := replaceAll mOpenP [] l20
    let l22 := replaceAll mOpenDiv [] l21
    let l23 := replaceAll mCloseDiv ['\n'] l22
    let l24 := replaceAll mOpenH ['\n'] l23
    let l25 := replaceAll mCloseH ['\n', '\n'] l24
    let l26 := replaceAll mOpenLi [bulletChar, ' '] l25
    let l27 := replaceAll mCloseLi ['\n'] l26
    let l28 := replaceAll mAnyTag [' '] l27
    let l29 := replaceAll (litCI "&nbsp;".data) [' '] l28
    let l30 := replaceAll (litCI "&amp;".data) ['&'] l29
    let l31 := replaceAll (litCI "&lt;".data) ['<'] l30
    let l32 := replaceAll (litCI "&gt;".data) ['>'] l31
    let l33 := replaceAll (litCI "&quot;".data) ['"'] l32
    let l34 := replaceAll (litCI "&#39;".data) [aposChar] l33
    let l35 := replaceAll mEntGeneric [] l34
    let l36 := replaceAll mWsRun [' '] l35
    let l37 := replaceAll mNlWs ['\n'] l36
    let l38 := replaceAll mNl3 ['\n', '\n'] l37
    String.mk (trimL l38)

/-! ### A small regex AST and backtracking engine

The remaining regexes of the source (company and job-title patterns, the
From-header display-name pattern) are transcribed into the AST below and
executed by a continuation-passing backtracking engine with JavaScript
ordering: alternatives in written order, greedy `?`/`*` try the longer
branch first, lazy `*?` tries the continuation first, a `*` never
repeats an empty match.  Literals are matched case-insensitively (every
transcribed regex carries the `i` flag or contains no cased literal).
The engine is fueled; fuel bounds the depth of the search stack and is
chosen far above what any input of this development can need. -/

inductive Rx where
  | eps
  | lit (p : List Char)
  | cls (p : Char → Bool)
  | seq (a b : Rx)
  | alt (a b : Rx)
  | opt (a : Rx)
  | starG (a : Rx)
  | starL (a : Rx)
  | grp (a : Rx)
  | endA

/-- Run `r` against `s` with continuation `k`, threading the value of
the (single) capture group. -/
def rxRun : Nat → Rx → List Char → Option (List Char) →
    (List Char → Option (List Char) → Option (List Char)) →
    Option (List Char)
  | 0, _, _, _, _ => none
  | f + 1, r, s, cap, k =>
    match r with
    | .eps => k s cap
    | .lit p =>
      match litCI p s with
      | some rest => k rest cap
      | none => none
    | .cls p =>
      match s with
      | c :: cs => if p c then k cs cap else none
      | [] => none
    | .seq a b => rxRun f a s cap (fun s2 c2 => rxRun f b s2 c2 k)
    | .alt a b =>
      match rxRun f a s cap k with
      | some v => some v
      | none => rxRun f b s cap k
    | .opt a =>
      match rxRun f a s cap k with
      | some v => some v
      | none => k s cap
    | .starG a =>
      match rxRun f a s cap (fun s2 c2 =>
        if s2.length < s.length then rxRun f (.starG a) s2 c2 k else none) with
      | some v => some v
      | none => k s cap
    | .starL a =>
      match k s cap with
      | some v => some v
      | none =>
        rxRun f a s cap (fun s2 c2 =>
          if s2.length < s.length then rxRun f (.starL a) s2 c2 k else none)
    | .grp a =>
      rxRun f a s cap (fun s2 _ => k s2 (some (s.take (s.length - s2.length))))
    | .endA =>
      match s with
      | [] => k s cap
      | _ :: _ => none

/-- Fuel used by all engine invocations of this development; far beyond
the search depth any pattern here can reach on the evaluated inputs. -/
def rxFuel (s : List Char) : Nat := 2000 + 4 * s.length

def rxStr (w : String) : Rx := .lit w.data

def rxCat : List Rx → Rx
  | [] => Rx.eps
  | [a] => a
  | a :: rest => .seq a (rxCat rest)

def rxAlts : List Rx → Rx
  | [] => Rx.eps
  | [a] => a
  | a :: rest => .alt a (rxAlts rest)

/-- `\s+` -/
def rxWs1 : Rx := .seq (.cls isWsChar) (.starG (.cls isWsChar))

/-- `\s*` -/
def rxWs0 : Rx := .starG (.cls isWsChar)

/-- Words separated by `\s+`. -/
def rxWords : List String → Rx
  | [] => Rx.eps
  | [w] => rxStr w
  | w :: rest => .seq (rxStr w) (.seq rxWs1 (rxWords rest))

/-- A `\s+word` terminator branch. -/
def wsWord (w : String) : Rx := .seq rxWs1 (rxStr w)

/-- `[\.,!]` -/
def punctCls3 : Rx := .cls (fun c => c == '.' || c == ',' || c == '!')

/-- `[\.,]` -/
def punctCls2 : Rx := .cls (fun c => c == '.' || c == ',')

/-- `\s*$` -/
def wsEnd : Rx := .seq rxWs0 .endA

/-- `X+?` for a one-element-at-a-time lazy plus. -/
def rxPlusL (a : Rx) : Rx := .seq a (.starL a)

/-- The `.` class of JavaScript (anything but a line terminator). -/
def dotCls : Rx := .cls (fun c => !(c == '\n' || c == '\r'))

/-- `[\s\-]` -/
def wsDashCls : Rx := .cls (fun c => isWsChar c || c == '-')

/-- `(?:the\s+|a\s+|an\s+)?` -/
def optArticle : Rx :=
  .opt (rxAlts [.seq (rxStr "the") rxWs1, .seq (rxStr "a") rxWs1,
                .seq (rxStr "an") rxWs1])

/-! ### Company extractor: extractCompany (scan/route.ts lines 220-351) -/

/-- The first capture of `/@([^.]+)\./` on the sender address: the
characters between an `@` and a following first dot, scanning
left-to-right. -/
def domainCapture : List Char → Option (List Char)
  | [] => none
  | c :: s =>
    if c = '@' then
      let run := s.takeWhile (fun d => d != '.')
      if run.length ≠ 0 ∧ run.length < s.length then some run
      else domainCapture s
    else domainCapture s

def excludedDomains : List String :=
  [ "gmail", "yahoo", "outlook", "hotmail", "aol", "icloud"
  , "linkedin", "indeed", "glassdoor", "monster", "ziprecruiter", "dice"
  , "stackoverflow", "github", "angel", "wellfound", "hired", "bebee"
  , "workday", "greenhouse", "lever", "jobvite", "smartrecruiters"
  , "brassring", "icims", "kronos", "successfactors", "taleo"
  , "bamboohr", "namely", "zenefits", "gusto", "adp"
  , "noreply", "no-reply", "donotreply", "automated", "notifications" ]

def domainPrefixes : List String :=
  ["www.", "mail.", "hr.", "jobs.", "careers.", "recruiting.", "talent."]

def domainSuffixes : List String := ["corp", "inc", "llc", "ltd", "co"]

/-- `replace(/^(www\.|mail\.|...)/, '')`: strip at most one leading
alternative, first listed match wins. -/
def stripDomainPre (l : List Char) : List Char :=
  match domainPrefixes.find? (fun p => subAt p.data l) with
  | some p => l.drop p.data.length
  | none => l

/-- `replace(/(corp|inc|llc|ltd|co)$/, '')`: remove the leftmost
end-anchored alternative occurrence, if any. -/
def stripDomainSuf : List Char → List Char
  | [] => []
  | c :: t =>
    if domainSuffixes.any (fun a => c :: t = a.data) then []
    else c :: stripDomainSuf t

/-- `charAt(0).toUpperCase() + slice(1)` -/
def capFirstChar : List Char → List Char
  | [] => []
  | c :: t => upperChar c :: t

/-- Stage 1 of `extractCompany`: derive a company name from the sender
domain (lines 224-255); `none` falls through to the pattern stage. -/
def extractCompanyDomain (fromAddr : String) : Option String :=
  match domainCapture fromAddr.data with
  | some dom =>
    let domain := lowerL dom
    if excludedDomains.any (fun d => d.data = domain) then none
    else
      let c1 := stripDomainPre domain
      let c2 := stripDomainSuf c1
      let c3 := capFirstChar c2
      if 2 ≤ c3.length ∧ c3.length ≤ 50 then some (String.mk c3) else none
  | none => none

/-- A company body/subject pattern: every one of the ten source regexes
has the shape PREFIX `([A-Z][a-zA-Z\s&.\-']+?)` TERMINATOR. -/
structure CompanyPat where
  pre : Rx
  term : Rx

/-- First character class of the company capture, `[A-Z]` under the
`i` flag. -/
def companyFirstChar (c : Char) : Bool := isAsciiLetter c

/-- Continuation class of the company capture, `[a-zA-Z\s&.\-']`. -/
def companyMoreChar (c : Char) : Bool :=
  isAsciiLetter c || isWsChar c || c == '&' || c == '.' || c == '-' ||
  c == aposChar

/-- Does the pattern terminator match at this point? -/
def termMatches (fuel : Nat) (term : Rx) (s : List Char) : Bool :=
  (rxRun fuel term s none (fun _ _ => some [])).isSome

/-- Lazy extension of the company capture: after each appended class
character, try the terminator; shortest capture wins. -/
def companyCapLoop (fuel : Nat) (term : Rx) (acc : List Char) :
    List Char → Option (List Char)
  | d :: ds =>
    if companyMoreChar d then
      if termMatches fuel term ds then some (acc ++ [d])
      else companyCapLoop fuel term (acc ++ [d]) ds
    else none
  | [] => none

/-- Capture-plus-terminator of a company pattern at a fixed point. -/
def companyCapTerm (fuel : Nat) (term : Rx) : List Char → Option (List Char)
  | c :: cs =>
    if companyFirstChar c then companyCapLoop fuel term [c] cs else none
  | [] => none

/-- Try a company pattern at one position. -/
def matchCompanyAt (fuel : Nat) (p : CompanyPat) (s : List Char) :
    Option (List Char) :=
  rxRun fuel p.pre s none (fun rest _ => companyCapTerm fuel p.term rest)

/-- `fullText.match(pattern)`: scan positions left to right. -/
def scanCompanyPat (fuel : Nat) (p : CompanyPat) :
    List Char → Option (List Char)
  | [] => matchCompanyAt fuel p []
  | c :: cs =>
    match matchCompanyAt fuel p (c :: cs) with
    | some v => some v
    | none => scanCompanyPat fuel p cs

/-- The ten company patterns of scan/route.ts lines 258-280, in source
order. -/
def companyPatterns : List CompanyPat :=
  [ { pre := rxCat [rxStr "thank", .opt (rxStr "s"), rxWs1, rxStr "for",
        rxWs1, rxStr "applying", rxWs1,
        rxAlts [rxStr "to", rxStr "at", rxStr "with"], rxWs1]
    , term := rxAlts [wsWord "for", wsWord "as", .seq rxWs1 (rxStr "("),
        punctCls3, wsWord "team", wsWord "hr", wsWord "and", wsWord "we",
        wsWord "your", wsWord "today", wsWord "yesterday", wsWord "on",
        wsEnd] }
  , { pre := rxCat [rxWords ["thank", "you", "for", "your", "interest", "in"],
        rxWs1, .opt (.seq (rxStr "joining") rxWs1)]
    , term := rxAlts [wsWord "as", wsWord "for", .seq rxWs1 (rxStr "("),
        punctCls3, wsWord "team", wsWord "we", wsWord "and", wsWord "your",
        wsEnd] }
  , { pre := .seq (rxAlts [rxWords ["we", "at"], rxWords ["team", "at"],
        rxWords ["here", "at"], rxWords ["from", "the", "team", "at"]]) rxWs1
    , term := rxAlts [wsWord "are", wsWord "have", wsWord "would",
        wsWord "want", punctCls3, wsEnd] }
  , { pre := rxCat [rxStr "application", rxWs1,
        rxAlts [rxStr "to", rxStr "at", rxStr "with"], rxWs1]
    , term := rxAlts [wsWord "for", wsWord "as", wsWord "has", punctCls3,
        wsWord "team", wsEnd] }
  , { pre := rxCat [rxStr "position", rxWs1,
        rxAlts [rxStr "at", rxStr "with"], rxWs1]
    , term := rxAlts [wsWord "as", wsWord "for", punctCls3, wsWord "team",
        wsEnd] }
  , { pre := rxCat [rxStr "role", rxWs1,
        rxAlts [rxStr "at", rxStr "with"], rxWs1]
    , term := rxAlts [wsWord "as", wsWord "for", punctCls3, wsWord "team",
        wsEnd] }
  , { pre := .eps
    , term := rxAlts [.seq rxWs1 (.seq (rxStr "inc") (.opt (rxStr "."))),
        .seq rxWs1 (.seq (rxStr "corp") (.opt (rxStr "."))),
        wsWord "llc",
        .seq rxWs1 (.seq (rxStr "ltd") (.opt (rxStr "."))),
        wsWord "company", .seq rxWs1 (rxStr "co.")] }
  , { pre := rxCat [rxStr "from", rxWs1, .opt (.seq (rxStr "the") rxWs1)]
    , term := rxAlts [wsWord "team", wsWord "hiring", wsWord "hr",
        wsWord "recruiting", wsWord "talent", punctCls2, wsEnd] }
  , { pre := .seq (rxAlts [rxWords ["we", "are"], rxWords ["i", "am", "with"],
        rxWords ["i", "work", "at"], rxWords ["i", "represent"]]) rxWs1
    , term := rxAlts [wsWord "and", wsWord "team", punctCls2, wsEnd] }
  , { pre := rxCat [rxStr "your", rxWs1, rxStr "application", rxWs1,
        rxAlts [rxStr "to", rxStr "at", rxStr "with"], rxWs1]
    , term := rxAlts [wsWord "for", .seq rxWs1 (rxStr "-"), punctCls2,
        wsEnd] } ]

/-- The generic-term exclusion list of the pattern stage
(lines 290-299). -/
def companyGenericTerms : List String :=
  [ "team", "hr", "human resources", "recruiting", "talent", "hiring"
  , "notification", "noreply", "no reply", "automated", "system"
  , "admin", "support", "customer service", "help desk", "info"
  , "sales", "marketing", "newsletter", "updates", "alerts"
  , "jobs", "careers", "opportunities", "positions", "roles"
  , "application", "applications", "candidate", "candidates"
  , "recruiter", "recruiters", "staffing", "employment"
  , "department", "office", "division", "group", "unit" ]

/-- Complement of the cleaning regex `[^\w\s&.\-']`. -/
def keepCompanyChar (c : Char) : Bool :=
  isWordChar c || isWsChar c || c == '&' || c == '.' || c == '-' ||
  c == aposChar

/-- `/^[\d\s]+$/` -/
def jsAllDigitWs (l : List Char) : Bool :=
  !l.isEmpty && l.all (fun c => isAsciiDigit c || isWsChar c)

/-- `/^[A-Za-z]\s*$/` -/
def jsSingleLetterWs (l : List Char) : Bool :=
  match l with
  | c :: rest => isAsciiLetter c && rest.all isWsChar
  | [] => false

/-- `charAt(0).toUpperCase() + slice(1).toLowerCase()` -/
def capWordL : List Char → List Char
  | [] => []
  | c :: t => upperChar c :: lowerL t

/-- `split(' ').map(capitalize-lower).join(' ')` -/
def titleCaseL (l : List Char) : List Char :=
  joinWith ' ' ((splitChar ' ' l).map capWordL)

/-- The filter-and-format body of the pattern stage for one raw capture
(lines 287-319); `none` means the loop moves to the next pattern. -/
def stage2Filters (rawCap : List Char) : Option String :=
  let companyName := trimL rawCap
  let isGeneric := companyGenericTerms.any (fun t =>
    hasSub t.data (lowerL companyName) || lowerL companyName = t.data)
  if ¬isGeneric ∧ 2 ≤ companyName.length ∧ companyName.length ≤ 50 then
    let cleaned := trimL (companyName.filter keepCompanyChar)
    if 2 ≤ cleaned.length ∧ ¬(jsAllDigitWs cleaned = true) ∧
        ¬(jsSingleLetterWs cleaned = true) then
      some (String.mk (titleCaseL cleaned))
    else none
  else none

/-- Stage 2 of `extractCompany`: the for-loop over the ten patterns
(lines 284-322). -/
def companyPatternsLoop : List CompanyPat → List Char → Option String
  | [], _ => none
  | p :: ps, txt =>
    match scanCompanyPat (rxFuel txt) p txt with
    | some rawCap =>
      if rawCap.isEmpty then companyPatternsLoop ps txt
      else
        match stage2Filters rawCap with
        | some r => some r
        | none => companyPatternsLoop ps txt
    | none => companyPatternsLoop ps txt

/-- `/^(.+?)\s*<.*>$/` of the display-name stage (line 325), anchored
at both ends. -/
def fromNameRx : Rx :=
  rxCat [.grp (rxPlusL dotCls), rxWs0, rxStr "<", .starG dotCls,
    rxStr ">", .endA]

/-- Anchored match returning the capture group. -/
def rxMatchGroupAt (fuel : Nat) (r : Rx) (s : List Char) :
    Option (Option (List Char)) :=
  match rxRun fuel r s none (fun _ cap => some (cap.getD [])) with
  | some c => some (some c)
  | none => none

def fromNameGenericTerms : List String :=
  [ "noreply", "no-reply", "donotreply", "automated", "system"
  , "notification", "notifications", "alerts", "updates", "digest"
  , "jobs", "careers", "recruiting", "hr", "hiring", "talent" ]

def corpNameWords : List String := ["Inc", "Corp", "LLC", "Ltd", "Company", "Co"]

/-- Stage 3 of `extractCompany`: the From-header display name
(lines 325-348). -/
def extractCompanyFromName (fromAddr : String) : Option String :=
  match rxMatchGroupAt (rxFuel fromAddr.data) fromNameRx fromAddr.data with
  | some (some rawCap) =>
    let fromName := (trimL rawCap).filter
      (fun c => !(c == aposChar || c == '"'))
    let nameWords := splitWsRuns fromName
    let looksLikePersonName :=
      nameWords.length = 2 ∧
      nameWords.all (fun w =>
        2 ≤ w.length &&
        (match w with
         | c :: _ => c = upperChar c
         | [] => true)) ∧
      ¬(nameWords.any (fun w => corpNameWords.any (fun t => t.data = w)))
    if ¬looksLikePersonName ∧ 2 ≤ fromName.length ∧ fromName.length ≤ 50 then
      if fromNameGenericTerms.any (fun t => hasSub t.data (lowerL fromName)) then
        none
      else some (String.mk fromName)
    else none
  | _ => none

/-- scan/route.ts `extractCompany(from, body, subject)`. -/
def extractCompany (fromAddr : String) (body : String := "")
    (subject : String := "") : Option String :=
  match extractCompanyDomain fromAddr with
  | some c => some c
  | none =>
    let fullText := subject ++ " " ++ body
    match companyPatternsLoop companyPatterns fullText.data with
    | some c => some c
    | none => extractCompanyFromName fromAddr

/-! ### Job-title extractor: extractJobTitle (scan/route.ts lines 353-452) -/

/-- A job-title pattern: its regex and whether it is `^`-anchored. -/
structure TitlePat where
  anchored : Bool := false
  rx : Rx

/-- Capture class `[a-zA-Z0-9\s\-\/]`. -/
def titleChar (c : Char) : Bool :=
  isAsciiLetter c || isAsciiDigit c || isWsChar c || c == '-' || c == '/'

def titleCls : Rx := .cls titleChar

/-- The common `(?:\s+position|\s+role|\s+job|\s+at|\s+with|[\.,]|\s*$)`
terminator. -/
def titleTermCommon : Rx :=
  rxAlts [wsWord "position", wsWord "role", wsWord "job", wsWord "at",
    wsWord "with", punctCls2, wsEnd]

/-- The known-title alternation of the ninth pattern (line 379), in
source order. -/
def knownTitleAlts : List Rx :=
  [ rxWords ["software", "engineer"]
  , rxCat [rxStr "full", .opt wsDashCls, rxStr "stack", rxWs1,
      rxStr "developer"]
  , rxWords ["frontend", "developer"]
  , rxCat [rxStr "front", .opt wsDashCls, rxStr "end", rxWs1,
      rxStr "developer"]
  , rxWords ["backend", "developer"]
  , rxCat [rxStr "back", .opt wsDashCls, rxStr "end", rxWs1,
      rxStr "developer"]
  , rxWords ["web", "developer"]
  , rxWords ["mobile", "developer"]
  , rxWords ["ios", "developer"]
  , rxWords ["android", "developer"]
  , rxWords ["react", "developer"]
  , rxWords ["angular", "developer"]
  , rxWords ["vue", "developer"]
  , rxCat [rxStr "node", .opt (rxStr "."), rxStr "js", rxWs1,
      rxStr "developer"]
  , rxWords ["python", "developer"]
  , rxWords ["java", "developer"]
  , rxWords [".net", "developer"]
  , rxWords ["php", "developer"]
  , rxWords ["ruby", "developer"]
  , rxWords ["go", "developer"]
  , rxWords ["rust", "developer"]
  , rxWords ["data", "scientist"]
  , rxWords ["data", "analyst"]
  , rxWords ["data", "engineer"]
  , rxWords ["machine", "learning", "engineer"]
  , rxWords ["ai", "engineer"]
  , rxWords ["product", "manager"]
  , rxWords ["project", "manager"]
  , rxWords ["program", "manager"]
  , rxWords ["scrum", "master"]
  , rxWords ["agile", "coach"]
  , rxWords ["ui/ux", "designer"]
  , rxWords ["ux", "designer"]
  , rxWords ["ui", "designer"]
  , rxWords ["graphic", "designer"]
  , rxWords ["visual", "designer"]
  , rxWords ["interaction", "designer"]
  , rxWords ["product", "designer"]
  , rxWords ["devops", "engineer"]
  , rxWords ["site", "reliability", "engineer"]
  , rxWords ["system", "administrator"]
  , rxWords ["database", "administrator"]
  , rxWords ["network", "administrator"]
  , rxWords ["cloud", "engineer"]
  , rxWords ["aws", "engineer"]
  , rxWords ["azure", "engineer"]
  , rxWords ["gcp", "engineer"]
  , rxWords ["security", "engineer"]
  , rxWords ["cybersecurity", "analyst"]
  , rxWords ["qa", "engineer"]
  , rxWords ["test", "engineer"]
  , rxWords ["automation", "engineer"]
  , rxWords ["quality", "assurance", "engineer"]
  , rxWords ["business", "analyst"]
  , rxWords ["systems", "analyst"]
  , rxWords ["financial", "analyst"]
  , rxWords ["marketing", "analyst"]
  , rxWords ["technical", "writer"]
  , rxWords ["documentation", "specialist"]
  , rxWords ["sales", "manager"]
  , rxWords ["marketing", "manager"]
  , rxWords ["hr", "manager"]
  , rxWords ["operations", "manager"]
  , rxWords ["customer", "success", "manager"]
  , rxWords ["account", "manager"]
  , rxWords ["sales", "representative"]
  , rxWords ["business", "development"]
  , rxWords ["software", "architect"]
  , rxWords ["solutions", "architect"]
  , rxWords ["enterprise", "architect"]
  , rxWords ["technical", "architect"]
  , rxWords ["cloud", "architect"]
  , rxWords ["security", "architect"]
  , rxWords ["network", "engineer"]
  , rxWords ["infrastructure", "engineer"]
  , rxWords ["platform", "engineer"]
  , rxWords ["release", "engineer"]
  , rxWords ["build", "engineer"] ]

/-- Seniority alternation of the tenth pattern (line 382). -/
def seniorityAlts : List Rx :=
  [ rxStr "senior"
  , .seq (rxStr "sr") (.opt (rxStr "."))
  , rxStr "junior"
  , .seq (rxStr "jr") (.opt (rxStr "."))
  , rxStr "lead"
  , rxStr "principal"
  , rxStr "staff"
  , rxWords ["principal", "staff"]
  , rxStr "associate"
  , rxCat [rxStr "entry", .opt wsDashCls, rxStr "level"]
  , rxCat [rxStr "mid", .opt wsDashCls, rxStr "level"]
  , rxStr "experienced" ]

/-- Role-noun alternation shared by the tenth and eleventh patterns. -/
def roleNounAlts : List Rx :=
  [ rxStr "engineer", rxStr "developer", rxStr "programmer",
    rxStr "analyst", rxStr "manager", rxStr "designer", rxStr "architect",
    rxStr "specialist", rxStr "coordinator", rxStr "director",
    rxStr "consultant", rxStr "advisor" ]

/-- The thirteen title patterns of scan/route.ts lines 357-389, in source
order. -/
def titlePatterns : List TitlePat :=
  [ { rx := rxCat [rxAlts [rxWords ["applied", "for"],
        rxWords ["applying", "for"], rxWords ["application", "for"]],
        rxWs1, optArticle, .grp (rxPlusL titleCls),
        rxAlts [wsWord "position", wsWord "role", wsWord "job",
          wsWord "opening", wsWord "at", wsWord "with", punctCls2, wsEnd]] }
  , { rx := rxCat [rxAlts [rxWords ["for", "the"], rxWords ["for", "a"],
        rxWords ["for", "an"], rxWords ["as", "a"], rxWords ["as", "an"]],
        rxWs1, .grp (rxPlusL titleCls), titleTermCommon] }
  , { rx := rxCat [rxAlts [rxWords ["position", "of"], rxWords ["role", "of"],
        rxWords ["job", "of"], rxWords ["title", "of"]],
        rxWs1, .grp (rxPlusL titleCls),
        rxAlts [wsWord "at", wsWord "with", punctCls2, wsEnd]] }
  , { rx := rxCat [rxAlts [rxWords ["interested", "in"], rxStr "regarding"],
        rxWs1, optArticle, .grp (rxPlusL titleCls),
        rxAlts [wsWord "position", wsWord "role", wsWord "job",
          wsWord "opening", wsWord "opportunity", wsWord "at",
          wsWord "with", punctCls2, wsEnd]] }
  , { rx := rxCat [rxAlts [rxWords ["opening", "for"],
        rxWords ["opportunity", "for"], rxWords ["vacancy", "for"]],
        rxWs1,
        .opt (rxAlts [.seq (rxStr "a") rxWs1, .seq (rxStr "an") rxWs1,
          .seq (rxStr "the") rxWs1]),
        .grp (rxPlusL titleCls),
        rxAlts [wsWord "position", wsWord "role", wsWord "at",
          wsWord "with", punctCls2, wsEnd]] }
  , { anchored := true
    , rx := rxCat [.opt (.seq (rxStr "re:") rxWs0),
        rxAlts [rxStr "application", rxStr "apply", rxStr "applying",
          rxStr "interested"],
        .starL dotCls,
        .opt (.seq (rxStr "for") (.seq rxWs1 optArticle)),
        .grp (rxPlusL titleCls),
        rxAlts [wsWord "position", wsWord "role", wsWord "job",
          wsWord "at", wsWord "with", .seq rxWs1 (rxStr "-"), punctCls2,
          wsEnd]] }
  , { rx := rxCat [rxStr "thank", .opt (rxStr "s"), rxWs1, rxStr "for",
        rxWs1, rxStr "applying", rxWs1,
        .opt (.seq (rxStr "for") (.seq rxWs1 optArticle)),
        .grp (rxPlusL titleCls), titleTermCommon] }
  , { rx := rxCat [rxWords ["thank", "you", "for", "your", "interest", "in"],
        rxWs1, optArticle, .grp (rxPlusL titleCls), titleTermCommon] }
  , { rx := .grp (rxAlts knownTitleAlts) }
  , { rx := .grp (rxCat [rxAlts seniorityAlts, rxWs1, rxPlusL titleCls,
        rxAlts roleNounAlts]) }
  , { rx := rxCat [.seq (rxStr "for") (.seq rxWs1 optArticle),
        .grp (rxAlts (roleNounAlts ++ [rxStr "lead", rxStr "supervisor",
          rxStr "executive"])),
        titleTermCommon] }
  , { rx := .grp (rxCat [rxAlts [rxStr "intern", rxStr "internship",
        rxCat [rxStr "co", .opt wsDashCls, rxStr "op"],
        rxWords ["cooperative", "education"]],
        rxWs1, .starL dotCls,
        rxAlts [rxStr "engineer", rxStr "developer", rxStr "analyst",
          rxStr "designer", rxStr "marketing", rxStr "sales", rxStr "hr",
          rxStr "finance", rxStr "operations", rxStr "product",
          rxStr "data"]]) }
  , { rx := .grp (rxCat [rxAlts [rxStr "summer", rxStr "winter",
        rxStr "spring", rxStr "fall"],
        rxWs1, rxAlts [rxStr "intern", rxStr "internship"]]) } ]

/-- Unanchored scan for a pattern with a capture group. -/
def rxScanGroup (fuel : Nat) (r : Rx) : List Char → Option (Option (List Char))
  | [] => rxMatchGroupAt fuel r []
  | c :: cs =>
    match rxMatchGroupAt fuel r (c :: cs) with
    | some v => some v
    | none => rxScanGroup fuel r cs

def titleExcludeTerms : List String :=
  [ "application", "position", "role", "job", "opportunity", "opening"
  , "notification", "alert", "update", "digest", "newsletter"
  , "team", "company", "organization", "department", "division"
  , "and", "or", "the", "a", "an", "of", "in", "at", "for", "with"
  , "email", "message", "confirmation", "response", "reply" ]

/-- Complement of the title-cleaning regex `[^\w\s\-\/\.]`. -/
def keepTitleChar (c : Char) : Bool :=
  isWordChar c || isWsChar c || c == '-' || c == '/' || c == '.'

/-- The `isValidTitle` conjunction (lines 409-415). -/
def titleIsValid (title : List Char) : Bool :=
  3 ≤ title.length && title.length ≤ 80 &&
  !(titleExcludeTerms.any (fun t => lowerL title = t.data)) &&
  !(!title.isEmpty && title.all isAsciiDigit) &&
  title.any isAsciiLetter &&
  !(hasSub "thank".data (lowerL title)) &&
  !(hasSub "application received".data (lowerL title))

def techWords : List (String × String) :=
  [ ("ui", "UI"), ("ux", "UX"), ("api", "API"), ("sdk", "SDK")
  , ("ai", "AI"), ("ml", "ML"), ("aws", "AWS"), ("gcp", "GCP")
  , ("ios", "iOS"), ("android", "Android")
  , ("javascript", "JavaScript"), ("typescript", "TypeScript")
  , ("nodejs", "Node.js"), ("reactjs", "React.js"), ("vuejs", "Vue.js")
  , ("angularjs", "Angular.js"), ("devops", "DevOps"), ("qa", "QA")
  , ("hr", "HR"), ("cto", "CTO"), ("ceo", "CEO"), ("php", "PHP")
  , ("sql", "SQL"), ("nosql", "NoSQL"), ("html", "HTML"), ("css", "CSS")
  , ("rest", "REST"), ("graphql", "GraphQL"), ("ci/cd", "CI/CD") ]

/-- `word.split(/[-\/]/)`: split on either dash or slash. -/
def splitDashSlash : List Char → List (List Char)
  | [] => [[]]
  | c :: t =>
    match splitDashSlash t with
    | [] => [[]]
    | w :: ws =>
      if c = '-' ∨ c = '/' then [] :: w :: ws else (c :: w) :: ws

/-- Per-word capitalization of the title formatter (lines 431-443). -/
def formatTitleWord (w : List Char) : List Char :=
  let lw := lowerL w
  match techWords.find? (fun kv => kv.1.data = lw) with
  | some kv => kv.2.data
  | none =>
    if w.contains '-' || w.contains '/' then
      let sep := if w.contains '-' then '-' else '/'
      joinWith sep ((splitDashSlash w).map capWordL)
    else capWordL w

/-- `title.split(/\s+/).map(format).join(' ')` (lines 430-444). -/
def formatTitle (title : List Char) : List Char :=
  joinWith ' ' ((splitWsRuns title).map formatTitleWord)

/-- The for-loop over the thirteen title patterns (lines 392-449). -/
def titlePatternsLoop : List TitlePat → List Char → Option String
  | [], _ => none
  | p :: ps, txt =>
    let res := if p.anchored then rxMatchGroupAt (rxFuel txt) p.rx txt
               else rxScanGroup (rxFuel txt) p.rx txt
    match res with
    | some (some rawCap) =>
      if rawCap.isEmpty then titlePatternsLoop ps txt
      else
        let title := trimL ((trimL rawCap).filter keepTitleChar)
        if titleIsValid title then some (String.mk (formatTitle title))
        else titlePatternsLoop ps txt
    | _ => titlePatternsLoop ps txt

/-- scan/route.ts `extractJobTitle(content, subject)`. -/
def extractJobTitle (content : String) (subject : String := "") :
    Option String :=
  titlePatternsLoop titlePatterns (subject ++ " " ++ content).data

/-! ### Hybrid classifier: determineStatusWithAI (scan/route.ts 686-744)

The external Gemini call of src/lib/ai-service.ts `analyzeEmail` is a
network effect; it is modelled by an explicit outcome: it throws, or it
returns null (service unavailable, API error caught inside analyzeEmail,
unparsable or schema-invalid response), or it returns a validated
result.  `determineStatusWithAI` takes that outcome as an argument; its
own try/catch is the `.throws` branch below. -/

/-- Truthiness of a JavaScript `string | null` value. -/
def jsTruthyStr : Option String → Bool
  | some s => !(s == "")
  | none => false

/-- JavaScript `a || b` on `string | null` values. -/
def jsOrStr (a b : Option String) : Option String :=
  if jsTruthyStr a then a else b

/-- The validated response shape of ai-service.ts `EmailAnalysisResult`. -/
structure EmailAnalysisResult where
  status : JobStatus
  company : Option String
  jobTitle : Option String
  confidence : ℚ
  reasoning : Option String := none

/-- Outcome of one call to the external classifier. -/
inductive AICallOutcome where
  | throws (msg : String)
  | ok (r : Option EmailAnalysisResult)

/-- Return shape of `determineStatusWithAI`. -/
structure HybridResult where
  status : JobStatus
  company : Option String
  jobTitle : Option String
  confidence : ℚ
  method : AnalysisMethod

/-- The regex-fallback tail of `determineStatusWithAI`
(lines 726-743). -/
def regexFallback (content subject fromAddr : String) : HybridResult :=
  let regexStatus := determineStatus content
  let regexCompany := extractCompany fromAddr content subject
  let regexJobTitle := extractJobTitle content subject
  let c0 : ℚ := 0.3
  let c1 := if jsTruthyStr regexCompany ∧ regexCompany ≠ some "Unknown Company"
    then c0 + 0.2 else c0
  let c2 := if jsTruthyStr regexJobTitle ∧ regexJobTitle ≠ some "Unknown Position"
    then c1 + 0.2 else c1
  let c3 := if regexStatus = .rejected ∨ regexStatus = .offered
    then c2 + 0.2 else c2
  { status := regexStatus
  , company := regexCompany
  , jobTitle := regexJobTitle
  , confidence := min c3 0.9
  , method := .regex }

/-- scan/route.ts `determineStatusWithAI(content, subject, from)` with
the external call abstracted into `aiAvailable` and `aiOutcome`. -/
def determineStatusWithAI (aiAvailable : Bool) (aiOutcome : AICallOutcome)
    (content subject fromAddr : String) : HybridResult :=
  if aiAvailable then
    match aiOutcome with
    | .ok (some aiResult) =>
      if 0.2 ≤ aiResult.confidence then
        { status := aiResult.status
        , company := aiResult.company
        , jobTitle := aiResult.jobTitle
        , confidence := aiResult.confidence
        , method := .ai }
      else regexFallback content subject fromAddr
    | .ok none => regexFallback content subject fromAddr
    | .throws _ => regexFallback content subject fromAddr
  else regexFallback content subject fromAddr

/-! ### Scan confidence adjustment (scan/route.ts POST, lines 947-995) -/

/-- `/[a-z]+[A-Z]/.test`: some lowercase letter immediately followed by
an uppercase one. -/
def hasLowerUpper : List Char → Bool
  | a :: b :: rest =>
    (isAsciiLower a && isAsciiUpper b) || hasLowerUpper (b :: rest)
  | _ => false

/-- The per-email confidence adjustment applied by the POST handler to
the hybrid-classifier result (lines 947-993), ending with the 0.95 cap. -/
def scanConfidence (analysis : HybridResult)
    (body subject content fromAddr : String) : ℚ :=
  let company := jsOrStr analysis.company (extractCompany fromAddr body subject)
  let jobTitle := jsOrStr analysis.jobTitle (extractJobTitle content subject)
  let conf0 := analysis.confidence
  let conf1 :=
    if jsTruthyStr company ∧ company ≠ some "Unknown Company" then
      match company with
      | some cName =>
        if 2 < cName.length ∧ ¬(strIncludes (jsToLower cName) "team" = true)
        then conf0 + 0.1 else conf0
      | none => conf0
    else conf0
  let conf2 :=
    if jsTruthyStr jobTitle ∧ jobTitle ≠ some "Unknown Position"
    then conf1 + 0.1 else conf1
  let subjectLower := jsToLower subject
  let conf3 :=
    if strIncludes subjectLower "application" = true ∧
        strIncludes subjectLower "received" = true then conf2 + 0.1
    else if strIncludes subjectLower "interview" = true ∨
        strIncludes subjectLower "schedule" = true then conf2 + 0.15
    else if strIncludes subjectLower "offer" = true ∨
        strIncludes subjectLower "congratulations" = true then conf2 + 0.2
    else conf2
  let contentLower := jsToLower content
  let conf4 :=
    if strIncludes contentLower "newsletter" = true ∨
        strIncludes contentLower "digest" = true ∨
        strIncludes contentLower "marketing" = true ∨
        strIncludes contentLower "promotional" = true ∨
        strIncludes contentLower "unsubscribe" = true ∨
        strIncludes contentLower "you may be interested" = true
    then conf3 - 0.3 else conf3
  let conf5 :=
    if strIncludes fromAddr "@" = true ∧
        ¬(strIncludes fromAddr "noreply" = true) ∧
        ¬(strIncludes fromAddr "no-reply" = true) then
      let fromFirst := fromAddr.data.takeWhile (fun c => c != '@')
      if ¬fromFirst.isEmpty ∧
          (fromFirst.contains '.' ∨ hasLowerUpper fromFirst = true)
      then conf4 + 0.1 else conf4
    else conf4
  min conf5 0.95

/-- Retention threshold of the POST handler (line 995): an analysed
email is pushed into the result only when its adjusted confidence is at
least 0.2. -/
def scanRetains (confidence : ℚ) : Bool := 0.2 ≤ confidence

/-! ### Batch recategorization
(src/lib/job-recategorization-service.ts) -/

/-- A stored job record, the fields read by the service.  `lastAnalyzed`
is an ISO timestamp in storage; it is modelled as milliseconds since the
epoch, the value `new Date(x).getTime()` recovers from it. -/
structure JobData where
  id : String := ""
  companyName : String
  jobTitle : String
  status : JobStatus
  emailSubject : Option String := none
  emailFrom : Option String := none
  confidence : Option ℚ := none
  lastAnalyzed : Option ℚ := none
  analysisMethod : Option AnalysisMethod := none

def recatRejectionIndicators : List String :=
  [ "we regret to inform"
  , "sorry to inform"
  , "we are unable to"
  , "moving forward with other candidates"
  , "decided to pursue other candidates"
  , "not a match at this time"
  , "not the right fit"
  , "unfortunately"
  , "position has been filled"
  , "we have chosen other candidates"
  , "decided not to fill"
  , "thank you for your interest, however"
  , "wish you the best" ]

def recatOfferIndicators : List String :=
  [ "pleased to offer"
  , "happy to offer"
  , "job offer"
  , "offer you the position"
  , "congratulations"
  , "you have been selected"
  , "welcome to the team"
  , "offer letter"
  , "compensation package"
  , "start date" ]

def recatInterviewIndicators : List String :=
  [ "interview"
  , "phone screen"
  , "video call"
  , "schedule a call"
  , "technical screen"
  , "coding challenge"
  , "next round"
  , "meet with"
  , "next step" ]

def recatAppliedIndicators : List String :=
  [ "application received"
  , "thank you for applying"
  , "received your application"
  , "under review"
  , "will review"
  , "will be in touch" ]

/-- Return shape of `analyzeJobWithPatterns`. -/
structure PatternAnalysis where
  status : JobStatus
  company : Option String
  jobTitle : Option String
  confidence : ℚ
  reasoning : String

/-- job-recategorization-service.ts `analyzeJobWithPatterns(job)`
(lines 61-161). -/
def analyzeJobWithPatterns (job : JobData) : PatternAnalysis :=
  let emailSubject := jsToLower (job.emailSubject.getD "")
  let combinedText := emailSubject
  if recatRejectionIndicators.any (fun i => strIncludes combinedText i) then
    { status := .rejected, company := some job.companyName
    , jobTitle := some job.jobTitle, confidence := 0.8
    , reasoning := "Strong rejection language detected in email content" }
  else if recatOfferIndicators.any (fun i => strIncludes combinedText i) then
    { status := .offered, company := some job.companyName
    , jobTitle := some job.jobTitle, confidence := 0.9
    , reasoning := "Offer language detected in email content" }
  else if recatInterviewIndicators.any (fun i => strIncludes combinedText i) then
    { status := .interviewing, company := some job.companyName
    , jobTitle := some job.jobTitle, confidence := 0.7
    , reasoning := "Interview-related language detected in email content" }
  else if recatAppliedIndicators.any (fun i => strIncludes combinedText i) then
    { status := .applied, company := some job.companyName
    , jobTitle := some job.jobTitle, confidence := 0.6
    , reasoning := "Application confirmation language detected" }
  else
    { status := job.status, company := some job.companyName
    , jobTitle := some job.jobTitle, confidence := 0.3
    , reasoning := "Status maintained based on existing classification" }

/-- Return shape of the client-side `analyzeJobWithAI`. -/
structure RecatAnalysis where
  newStatus : JobStatus
  newCompany : Option String
  newJobTitle : Option String
  confidence : ℚ
  method : AnalysisMethod
  reasoning : Option String := none

/-- job-recategorization-service.ts `analyzeJobWithAI(job)`
(lines 164-195): short-circuits to insufficient_data without email data,
otherwise routes to the pattern matcher with method regex. -/
def analyzeJobWithAI (job : JobData) : RecatAnalysis :=
  if ¬(jsTruthyStr job.emailSubject = true) ∧
      ¬(jsTruthyStr job.emailFrom = true) then
    { newStatus := job.status
    , newCompany := some job.companyName
    , newJobTitle := some job.jobTitle
    , confidence := 0.1
    , method := .insufficientData
    , reasoning := some "No email data available for analysis" }
  else
    let enhancedStatus := analyzeJobWithPatterns job
    { newStatus := enhancedStatus.status
    , newCompany := jsOrStr enhancedStatus.company (some job.companyName)
    , newJobTitle := jsOrStr enhancedStatus.jobTitle (some job.jobTitle)
    , confidence := enhancedStatus.confidence
    , method := .regex
    , reasoning := some enhancedStatus.reasoning }

/-- The modes of `runRecategorization`. -/
inductive RecatMode where
  | analyze
  | update
deriving DecidableEq, Repr

/-- The Firestore update object built for one record
(lines 375-401): three unconditional fields, plus status, companyName,
jobTitle and analysisReasoning when their guards hold.  `none` means the
field is absent from the update. -/
structure JobUpdates where
  lastAnalyzed : String
  analysisMethod : AnalysisMethod
  confidence : ℚ
  status : Option JobStatus := none
  companyName : Option String := none
  jobTitle : Option String := none
  analysisReasoning : Option String := none

/-- The field names present in an update object. -/
def updatedFields (u : JobUpdates) : List String :=
  ["lastAnalyzed", "analysisMethod", "confidence"] ++
  (if u.status.isSome then ["status"] else []) ++
  (if u.companyName.isSome then ["companyName"] else []) ++
  (if u.jobTitle.isSome then ["jobTitle"] else []) ++
  (if u.analysisReasoning.isSome then ["analysisReasoning"] else [])

def statusChangedB (job : JobData) (analysis : RecatAnalysis) : Bool :=
  analysis.newStatus ≠ job.status

def companyChangedB (job : JobData) (analysis : RecatAnalysis) : Bool :=
  jsTruthyStr analysis.newCompany &&
  analysis.newCompany ≠ some job.companyName

def titleChangedB (job : JobData) (analysis : RecatAnalysis) : Bool :=
  jsTruthyStr analysis.newJobTitle &&
  analysis.newJobTitle ≠ some job.jobTitle

/-- Build the update object of lines 375-401. -/
def buildJobUpdates (nowIso : String) (job : JobData)
    (analysis : RecatAnalysis) : JobUpdates :=
  { lastAnalyzed := nowIso
  , analysisMethod := analysis.method
  , confidence := analysis.confidence
  , status := if statusChangedB job analysis then some analysis.newStatus
      else none
  , companyName := if companyChangedB job analysis then analysis.newCompany
      else none
  , jobTitle := if titleChangedB job analysis then analysis.newJobTitle
      else none
  , analysisReasoning := if jsTruthyStr analysis.reasoning then
      analysis.reasoning else none }

/-- One entry of `analysisDetails.statusChanges`; the source's `from` and
`to` field names are Lean keywords and appear as `fromStatus`,
`toStatus`. -/
structure StatusChange where
  fromStatus : JobStatus
  toStatus : JobStatus
  company : String
  jobTitle : String
deriving DecidableEq, Repr

/-- What the loop body does with one record. -/
inductive StepOutcome where
  | skippedRecent
  | noChange (analysis : RecatAnalysis)
  | wouldUpdate (analysis : RecatAnalysis)
  | updated (analysis : RecatAnalysis) (u : JobUpdates)

def msPerDay : ℚ := 1000 * 60 * 60 * 24

/-- The analyse-and-maybe-update tail of the loop body
(lines 351-432); the source's `analysis` local is written out as
`analyzeJobWithAI job`. -/
def recatAnalyzePhase (nowIso : String) (mode : RecatMode) (job : JobData) :
    StepOutcome :=
  if statusChangedB job (analyzeJobWithAI job) ∨
      companyChangedB job (analyzeJobWithAI job) ∨
      titleChangedB job (analyzeJobWithAI job) then
    match mode with
    | .update =>
      .updated (analyzeJobWithAI job)
        (buildJobUpdates nowIso job (analyzeJobWithAI job))
    | .analyze => .wouldUpdate (analyzeJobWithAI job)
  else .noChange (analyzeJobWithAI job)

/-- The staleness test of lines 341-344: a truthy lastAnalyzed less than
7 days before `now`. -/
def recentlyAnalyzed (now : ℚ) : Option ℚ → Bool
  | some t => (now - t) / msPerDay < 7
  | none => false

/-- The loop body of `runRecategorization` for one record
(lines 336-441): the staleness gate, then analysis and update
construction. -/
def recatStep (now : ℚ) (nowIso : String) (mode : RecatMode)
    (forceUpdate : Bool) (job : JobData) : StepOutcome :=
  if ¬forceUpdate ∧ recentlyAnalyzed now job.lastAnalyzed = true then
    .skippedRecent
  else recatAnalyzePhase nowIso mode job

/-- `analysisDetails` of a `RecategorizationResult`. -/
structure RecatDetails where
  aiAnalyzed : Nat := 0
  regexFallbackCount : Nat := 0
  skipped : Nat := 0
  statusChanges : List StatusChange := []

/-- `RecategorizationResult` of the service. -/
structure RecatResult where
  totalJobs : Nat := 0
  analyzedJobs : Nat := 0
  updatedJobs : Nat := 0
  errors : List String := []
  analysisDetails : RecatDetails := {}

/-- Method-counter bump of lines 358-364. -/
def methodBump (d : RecatDetails) (m : AnalysisMethod) : RecatDetails :=
  match m with
  | .ai => { d with aiAnalyzed := d.aiAnalyzed + 1 }
  | .regex => { d with regexFallbackCount := d.regexFallbackCount + 1 }
  | _ => { d with skipped := d.skipped + 1 }

def pushStatusChange (d : RecatDetails) (job : JobData)
    (analysis : RecatAnalysis) : RecatDetails :=
  if statusChangedB job analysis then
    { d with statusChanges := d.statusChanges ++
        [{ fromStatus := job.status, toStatus := analysis.newStatus
         , company := job.companyName, jobTitle := job.jobTitle }] }
  else d

/-- Accumulate the result of one record into the running
`RecategorizationResult`. -/
def processOne (now : ℚ) (nowIso : String) (mode : RecatMode)
    (forceUpdate : Bool) (acc : RecatResult) (job : JobData) : RecatResult :=
  match recatStep now nowIso mode forceUpdate job with
  | .skippedRecent =>
    { acc with analysisDetails :=
        { acc.analysisDetails with
            skipped := acc.analysisDetails.skipped + 1 } }
  | .noChange a =>
    { acc with analyzedJobs := acc.analyzedJobs + 1
             , analysisDetails := methodBump acc.analysisDetails a.method }
  | .wouldUpdate a =>
    { acc with analyzedJobs := acc.analyzedJobs + 1
             , analysisDetails :=
                 pushStatusChange (methodBump acc.analysisDetails a.method)
                   job a }
  | .updated a _ =>
    { acc with analyzedJobs := acc.analyzedJobs + 1
             , updatedJobs := acc.updatedJobs + 1
             , analysisDetails :=
                 pushStatusChange (methodBump acc.analysisDetails a.method)
                   job a }

/-- job-recategorization-service.ts `runRecategorization` over the
records fetched for the user (lines 291-449); persistence and logging
are outside the model. -/
def runRecategorization (now : ℚ) (nowIso : String) (jobs : List JobData)
    (mode : RecatMode := .analyze) (forceUpdate : Bool := false) :
    RecatResult :=
  if jobs.isEmpty then { totalJobs := 0 }
  else
    jobs.foldl (processOne now nowIso mode forceUpdate)
      { totalJobs := jobs.length }

/-! ### Plain-text inputs

The idempotence analysis of the normalizer uses this class of inputs:
ASCII letters, digits and single interior spaces, with no leading or
trailing space. -/

def isAlnumSpace (c : Char) : Bool :=
  isAsciiLetter c || isAsciiDigit c || c == ' '

def noDoubleSpace : List Char → Bool
  | a :: b :: rest => !(a == ' ' && b == ' ') && noDoubleSpace (b :: rest)
  | _ => true

def headNotSp : List Char → Bool
  | [] => true
  | c :: _ => !(c == ' ')

/-- Trimmed, single-spaced, ASCII-alphanumeric text. -/
def plainTextStr (s : String) : Bool :=
  s.data.all isAlnumSpace && noDoubleSpace s.data &&
  headNotSp s.data && headNotSp s.data.reverse

end JobTracker

namespace JobTracker

/-! ## Theorems -/

/-- Membership witness for a `List.any` of substring checks. -/
theorem any_of_mem_strIncludes {l : List String} {cl p : String}
    (hmem : p ∈ l) (h : strIncludes cl p = true) :
    l.any (fun i => strIncludes cl i) = true :=
  List.any_eq_true.mpr ⟨p, hmem, h⟩

/-- A boolean cannot be both true and false. -/
theorem bool_tf_absurd {b : Bool} {C : Prop} (h1 : b = true)
    (h2 : b = false) : C := by
  rw [h1] at h2
  exact Bool.noConfusion h2

/-- C2: determineStatus checks the four indicator-phrase sets in strict
priority order rejected, then offered, then interviewing, then applied;
the first category with any substring match wins, no match defaults to
applied, and ghosted is never returned; in particular content containing
both "unfortunately" and "schedule a call" is classified rejected. -/
theorem C2_determineStatus_priority (content : String) :
    determineStatus content ≠ JobStatus.ghosted ∧
    (rejectionIndicators.any (fun i => strIncludes (jsToLower content) i)
        = true → determineStatus content = JobStatus.rejected) ∧
    (rejectionIndicators.any (fun i => strIncludes (jsToLower content) i)
        = false →
      offerIndicators.any (fun i => strIncludes (jsToLower content) i)
        = true → determineStatus content = JobStatus.offered) ∧
    (rejectionIndicators.any (fun i => strIncludes (jsToLower content) i)
        = false →
      offerIndicators.any (fun i => strIncludes (jsToLower content) i)
        = false →
      interviewIndicators.any (fun i => strIncludes (jsToLower content) i)
        = true → determineStatus content = JobStatus.interviewing) ∧
    (rejectionIndicators.any (fun i => strIncludes (jsToLower content) i)
        = false →
      offerIndicators.any (fun i => strIncludes (jsToLower content) i)
        = false →
      interviewIndicators.any (fun i => strIncludes (jsToLower content) i)
        = false → determineStatus content = JobStatus.applied) ∧
    (strIncludes (jsToLower content) "unfortunately" = true →
      strIncludes (jsToLower content) "schedule a call" = true →
      determineStatus content = JobStatus.rejected) := by
  have hmem : "unfortunately" ∈ rejectionIndicators := by decide
  cases hr : rejectionIndicators.any (fun i => strIncludes (jsToLower content) i) with
  | true =>
    have hds : determineStatus content = JobStatus.rejected := by
      simp [determineStatus, hr]
    exact ⟨by simp [hds], fun _ => hds, fun h _ => Bool.noConfusion h,
      fun h _ _ => Bool.noConfusion h, fun h _ _ => Bool.noConfusion h,
      fun _ _ => hds⟩
  | false =>
    cases ho : offerIndicators.any (fun i => strIncludes (jsToLower content) i) with
    | true =>
      have hds : determineStatus content = JobStatus.offered := by
        simp [determineStatus, hr, ho]
      exact ⟨by simp [hds], fun h => Bool.noConfusion h, fun _ _ => hds,
        fun _ h _ => Bool.noConfusion h, fun _ h _ => Bool.noConfusion h,
        fun hu _ =>
          bool_tf_absurd (any_of_mem_strIncludes hmem hu) hr⟩
    | false =>
      cases hi : interviewIndicators.any (fun i => strIncludes (jsToLower content) i) with
      | true =>
        have hds : determineStatus content = JobStatus.interviewing := by
          simp [determineStatus, hr, ho, hi]
        exact ⟨by simp [hds], fun h => Bool.noConfusion h,
          fun _ h => Bool.noConfusion h, fun _ _ _ => hds,
          fun _ _ h => Bool.noConfusion h,
          fun hu _ =>
            bool_tf_absurd (any_of_mem_strIncludes hmem hu) hr⟩
      | false =>
        have hds : determineStatus content = JobStatus.applied := by
          simp [determineStatus, hr, ho, hi]
        exact ⟨by simp [hds], fun h => Bool.noConfusion h,
          fun _ h => Bool.noConfusion h, fun _ _ h => Bool.noConfusion h,
          fun _ _ _ => hds,
          fun hu _ =>
            bool_tf_absurd (any_of_mem_strIncludes hmem hu) hr⟩

/-- C3: an application-confirmation phrase in the content forces
isJobBoardNotification to false for every sender and subject: the
confirmation check short-circuits before any noise signal is
consulted. -/
theorem C3_confirmation_never_noise (content fromAddr subject : String)
    (h : strIncludes (jsToLower content) "thank you for applying" = true ∨
      (strIncludes (jsToLower content) "thank you for your interest" = true ∧
       strIncludes (jsToLower content) "position" = true)) :
    isJobBoardNotification content fromAddr subject = false := by
  have hconf : isApplicationConfirmation (jsToLower content) = true := by
    rcases h with h | ⟨h1, h2⟩
    · simp [isApplicationConfirmation, h]
    · simp [isApplicationConfirmation, h1, h2]
  simp [isJobBoardNotification, hconf]

/-- C3 witness: a confirmation email from notifications@indeed.com is
not treated as noise. -/
theorem C3_confirmation_never_noise_witness :
    isJobBoardNotification "thank you for applying to acme"
      "notifications@indeed.com" "indeed job alert" = false :=
  C3_confirmation_never_noise "thank you for applying to acme"
    "notifications@indeed.com" "indeed job alert" (Or.inl (by decide))

/-- C4: on every failure mode of the external classifier (thrown
exception, null result, or sub-threshold confidence),
determineStatusWithAI resolves to the heuristic pipeline with method
regex (which satisfies regex-or-insufficient_data); the exception is
never propagated: the `.throws` outcome flows through the catch into the
same fallback and the function is total. -/
theorem C4_fallback_guarantee (aiAvailable : Bool) (outcome : AICallOutcome)
    (content subject fromAddr : String)
    (h : (∃ msg, outcome = .throws msg) ∨ outcome = .ok none ∨
      ∃ r, outcome = .ok (some r) ∧ r.confidence < 0.2) :
    ((determineStatusWithAI aiAvailable outcome content subject fromAddr).method
        = AnalysisMethod.regex ∨
      (determineStatusWithAI aiAvailable outcome content subject fromAddr).method
        = AnalysisMethod.insufficientData) ∧
    determineStatusWithAI aiAvailable outcome content subject fromAddr =
      regexFallback content subject fromAddr ∧
    (regexFallback content subject fromAddr).status = determineStatus content ∧
    (regexFallback content subject fromAddr).company =
      extractCompany fromAddr content subject ∧
    (regexFallback content subject fromAddr).jobTitle =
      extractJobTitle content subject ∧
    (regexFallback content subject fromAddr).method = AnalysisMethod.regex := by
  have hfb : determineStatusWithAI aiAvailable outcome content subject fromAddr =
      regexFallback content subject fromAddr := by
    rcases h with ⟨msg, rfl⟩ | rfl | ⟨r, rfl, hc⟩ <;> cases aiAvailable <;>
      simp [determineStatusWithAI]
    exact fun hge => absurd hge (not_le.mpr hc)
  refine ⟨?_, hfb, rfl, rfl, rfl, rfl⟩
  rw [hfb]
  exact Or.inl rfl

/-- C4 witness: a thrown external call on a concrete email falls back to
the regex path. -/
theorem C4_fallback_guarantee_witness :
    ((determineStatusWithAI true (.throws "Gemini AI analysis failed")
        "" "" "").method = AnalysisMethod.regex ∨
      (determineStatusWithAI true (.throws "Gemini AI analysis failed")
        "" "" "").method = AnalysisMethod.insufficientData) ∧
    determineStatusWithAI true (.throws "Gemini AI analysis failed")
      "" "" "" = regexFallback "" "" "" ∧
    (regexFallback "" "" "").status = determineStatus "" ∧
    (regexFallback "" "" "").company = extractCompany "" "" "" ∧
    (regexFallback "" "" "").jobTitle = extractJobTitle "" "" ∧
    (regexFallback "" "" "").method = AnalysisMethod.regex :=
  C4_fallback_guarantee true (.throws "Gemini AI analysis failed") "" "" ""
    (Or.inl ⟨"Gemini AI analysis failed", rfl⟩)

/-- C9: a record with neither an email subject nor a sender available
short-circuits to the insufficient_data result that preserves the
existing status, companyName and jobTitle; neither the AI nor the
pattern path is consulted (the returned record is the literal
short-circuit branch). -/
theorem C9_insufficient_data_short_circuit (job : JobData)
    (hs : jsTruthyStr job.emailSubject = false)
    (hf : jsTruthyStr job.emailFrom = false) :
    analyzeJobWithAI job =
      { newStatus := job.status
      , newCompany := some job.companyName
      , newJobTitle := some job.jobTitle
      , confidence := 0.1
      , method := .insufficientData
      , reasoning := some "No email data available for analysis" } := by
  unfold analyzeJobWithAI
  rw [if_pos]
  constructor
  · rw [hs]; exact Bool.noConfusion
  · rw [hf]; exact Bool.noConfusion

/-- C9 witness: a concrete record with no email data keeps its fields
and is tagged insufficient_data. -/
theorem C9_insufficient_data_short_circuit_witness :
    analyzeJobWithAI
      { companyName := "Acme", jobTitle := "Engineer"
      , status := .interviewing } =
      { newStatus := JobStatus.interviewing
      , newCompany := some "Acme"
      , newJobTitle := some "Engineer"
      , confidence := 0.1
      , method := .insufficientData
      , reasoning := some "No email data available for analysis" } :=
  C9_insufficient_data_short_circuit
    { companyName := "Acme", jobTitle := "Engineer"
    , status := .interviewing } rfl rfl

/-- C1: the scan pipeline adjusted confidence never exceeds 0.95, and a
retained classification (adjusted confidence at least the 0.2 retention
threshold) satisfies 0 <= confidence <= 0.95.  The lower bound of a
retained value comes from the retention gate; the explicit clamp of the
source is only the 0.95 cap. -/
theorem C1_confidence_bounds (analysis : HybridResult)
    (body subject content fromAddr : String) :
    scanConfidence analysis body subject content fromAddr ≤ 0.95 ∧
    (scanRetains (scanConfidence analysis body subject content fromAddr)
        = true →
      0 ≤ scanConfidence analysis body subject content fromAddr ∧
      scanConfidence analysis body subject content fromAddr ≤ 0.95) := by
  have hub : scanConfidence analysis body subject content fromAddr ≤ 0.95 := by
    unfold scanConfidence
    exact min_le_right _ _
  refine ⟨hub, fun hr => ⟨?_, hub⟩⟩
  have h02 : (0.2 : ℚ) ≤ scanConfidence analysis body subject content fromAddr := by
    simpa [scanRetains] using hr
  linarith

/-- The client-side analysis never reports method ai. -/
theorem analyzeJobWithAI_method_cases (job : JobData) :
    (analyzeJobWithAI job).method = AnalysisMethod.insufficientData ∨
    (analyzeJobWithAI job).method = AnalysisMethod.regex := by
  unfold analyzeJobWithAI
  split
  · exact Or.inl rfl
  · exact Or.inr rfl

/-- A non-ai method bump leaves the aiAnalyzed counter unchanged. -/
theorem methodBump_aiAnalyzed (d : RecatDetails) (m : AnalysisMethod)
    (h : m ≠ AnalysisMethod.ai) :
    (methodBump d m).aiAnalyzed = d.aiAnalyzed := by
  cases m with
  | ai => exact absurd rfl h
  | regex => rfl
  | manual => rfl
  | insufficientData => rfl

theorem pushStatusChange_aiAnalyzed (d : RecatDetails) (job : JobData)
    (a : RecatAnalysis) :
    (pushStatusChange d job a).aiAnalyzed = d.aiAnalyzed := by
  unfold pushStatusChange
  split <;> rfl

/-- The loop body is the staleness skip or the analysis phase. -/
theorem recatStep_cases (now : ℚ) (nowIso : String) (mode : RecatMode)
    (force : Bool) (job : JobData) :
    recatStep now nowIso mode force job = StepOutcome.skippedRecent ∨
    recatStep now nowIso mode force job =
      recatAnalyzePhase nowIso mode job := by
  unfold recatStep
  by_cases hc : ¬force = true ∧ recentlyAnalyzed now job.lastAnalyzed = true
  · rw [if_pos hc]
    exact Or.inl rfl
  · rw [if_neg hc]
    exact Or.inr rfl

/-- The analysis phase produces one of the three analysed outcomes,
always carrying the analyzeJobWithAI result. -/
theorem recatAnalyzePhase_cases (nowIso : String) (mode : RecatMode)
    (job : JobData) :
    recatAnalyzePhase nowIso mode job =
      StepOutcome.noChange (analyzeJobWithAI job) ∨
    recatAnalyzePhase nowIso mode job =
      StepOutcome.wouldUpdate (analyzeJobWithAI job) ∨
    recatAnalyzePhase nowIso mode job =
      StepOutcome.updated (analyzeJobWithAI job)
        (buildJobUpdates nowIso job (analyzeJobWithAI job)) := by
  unfold recatAnalyzePhase
  by_cases hc : statusChangedB job (analyzeJobWithAI job) = true ∨
      companyChangedB job (analyzeJobWithAI job) = true ∨
      titleChangedB job (analyzeJobWithAI job) = true
  · rw [if_pos hc]
    cases mode with
    | update => exact Or.inr (Or.inr rfl)
    | analyze => exact Or.inr (Or.inl rfl)
  · rw [if_neg hc]
    exact Or.inl rfl

/-- One record never moves the aiAnalyzed counter. -/
theorem processOne_aiAnalyzed (now : ℚ) (nowIso : String) (mode : RecatMode)
    (force : Bool) (acc : RecatResult) (job : JobData) :
    (processOne now nowIso mode force acc job).analysisDetails.aiAnalyzed =
      acc.analysisDetails.aiAnalyzed := by
  have hnotai : (analyzeJobWithAI job).method ≠ AnalysisMethod.ai := by
    rcases analyzeJobWithAI_method_cases job with h | h <;> simp [h]
  rcases recatStep_cases now nowIso mode force job with hstep | hstep
  · simp [processOne, hstep]
  · rcases recatAnalyzePhase_cases nowIso mode job with hph | hph | hph <;>
      rw [hph] at hstep <;>
      simp [processOne, hstep, pushStatusChange_aiAnalyzed,
        methodBump_aiAnalyzed _ _ hnotai]

theorem foldl_processOne_aiAnalyzed (now : ℚ) (nowIso : String)
    (mode : RecatMode) (force : Bool) :
    ∀ (jobs : List JobData) (acc : RecatResult),
      ((jobs.foldl (processOne now nowIso mode force) acc)).analysisDetails.aiAnalyzed =
        acc.analysisDetails.aiAnalyzed := by
  intro jobs
  induction jobs with
  | nil => intro acc; rfl
  | cons j js ih =>
    intro acc
    rw [List.foldl_cons, ih, processOne_aiAnalyzed]

/-- C10: the batch recategorization analysis never uses the AI path: the
client-side analyzeJobWithAI reports only regex or insufficient_data, so
the aiAnalyzed counter of every runRecategorization result is 0. -/
theorem C10_no_ai_in_batch (now : ℚ) (nowIso : String)
    (jobs : List JobData) (mode : RecatMode) (force : Bool) :
    (runRecategorization now nowIso jobs mode force).analysisDetails.aiAnalyzed
        = 0 ∧
    ∀ job : JobData,
      (analyzeJobWithAI job).method = AnalysisMethod.insufficientData ∨
      (analyzeJobWithAI job).method = AnalysisMethod.regex := by
  refine ⟨?_, analyzeJobWithAI_method_cases⟩
  unfold runRecategorization
  split
  · rfl
  · rw [foldl_processOne_aiAnalyzed]

/-- C8: a record analysed less than 7 days ago is skipped by a run
without forceUpdate: the loop body returns the skip outcome (which
performs no analysis), and its only effect on the accumulated result is
the skipped counter; with forceUpdate set the staleness gate is bypassed
and the record reaches the analysis phase, which never skips. -/
theorem C8_staleness_gate (now : ℚ) (nowIso : String) (mode : RecatMode)
    (job : JobData) (t : ℚ) (acc : RecatResult)
    (hla : job.lastAnalyzed = some t)
    (hfresh : (now - t) / msPerDay < 7) :
    recatStep now nowIso mode false job = StepOutcome.skippedRecent ∧
    processOne now nowIso mode false acc job =
      { acc with analysisDetails :=
          { acc.analysisDetails with
              skipped := acc.analysisDetails.skipped + 1 } } ∧
    recatStep now nowIso mode true job = recatAnalyzePhase nowIso mode job ∧
    ∀ j : JobData, recatAnalyzePhase nowIso mode j ≠ StepOutcome.skippedRecent := by
  have hrec : recentlyAnalyzed now job.lastAnalyzed = true := by
    rw [hla]
    simp only [recentlyAnalyzed, decide_eq_true_eq]
    exact hfresh
  have h1 : recatStep now nowIso mode false job = StepOutcome.skippedRecent := by
    unfold recatStep
    rw [if_pos ⟨Bool.noConfusion, hrec⟩]
  refine ⟨h1, ?_, ?_, ?_⟩
  · simp [processOne, h1]
  · unfold recatStep
    rw [if_neg]
    intro hcon
    exact hcon.1 rfl
  · intro j
    rcases recatAnalyzePhase_cases nowIso mode j with h | h | h <;>
      rw [h] <;> exact fun hcon => StepOutcome.noConfusion hcon

/-- C8 witness: a record analysed two days before the run is skipped
without forceUpdate and analysed with it. -/
theorem C8_staleness_gate_witness :
    recatStep 172800000 "2025-06-01T00:00:00.000Z" RecatMode.update false
        { companyName := "Acme", jobTitle := "Dev", status := .applied
        , emailSubject := some "unfortunately", lastAnalyzed := some 0 } =
      StepOutcome.skippedRecent ∧
    processOne 172800000 "2025-06-01T00:00:00.000Z" RecatMode.update false
        { totalJobs := 1 }
        { companyName := "Acme", jobTitle := "Dev", status := .applied
        , emailSubject := some "unfortunately", lastAnalyzed := some 0 } =
      { totalJobs := 1
      , analysisDetails := { skipped := 1 } } ∧
    recatStep 172800000 "2025-06-01T00:00:00.000Z" RecatMode.update true
        { companyName := "Acme", jobTitle := "Dev", status := .applied
        , emailSubject := some "unfortunately", lastAnalyzed := some 0 } =
      recatAnalyzePhase "2025-06-01T00:00:00.000Z" RecatMode.update
        { companyName := "Acme", jobTitle := "Dev", status := .applied
        , emailSubject := some "unfortunately", lastAnalyzed := some 0 } ∧
    ∀ j : JobData,
      recatAnalyzePhase "2025-06-01T00:00:00.000Z" RecatMode.update j ≠
        StepOutcome.skippedRecent :=
  C8_staleness_gate 172800000 "2025-06-01T00:00:00.000Z" RecatMode.update
    { companyName := "Acme", jobTitle := "Dev", status := .applied
    , emailSubject := some "unfortunately", lastAnalyzed := some 0 }
    0 { totalJobs := 1 } rfl (by norm_num [msPerDay])

/-- C7 (amended): every per-record update issued by the batch
recategorization writes only whole-field replacements drawn from the
seven fields status, companyName, jobTitle, lastAnalyzed,
analysisMethod, confidence and analysisReasoning; the source also
writes analysisReasoning (lines 399-401), which the claim's six-field
list omits. -/
theorem C7_update_field_set (nowIso : String) (job : JobData)
    (analysis : RecatAnalysis) :
    (updatedFields (buildJobUpdates nowIso job analysis)).all
      (fun f => ["status", "companyName", "jobTitle", "lastAnalyzed",
        "analysisMethod", "confidence", "analysisReasoning"].contains f)
      = true := by
  generalize buildJobUpdates nowIso job analysis = u
  unfold updatedFields
  cases h1 : u.status.isSome <;> cases h2 : u.companyName.isSome <;>
    cases h3 : u.jobTitle.isSome <;> cases h4 : u.analysisReasoning.isSome <;>
    simp [h1, h2, h3, h4]

/-- C7 counterexample: a stale record whose subject carries rejection
language is updated in update mode, and the issued update contains the
field analysisReasoning, which is outside the claim's six-field set. -/
theorem C7_reasoning_field_written :
    recatStep 0 "2025-06-01T00:00:00.000Z" RecatMode.update false
        { companyName := "Acme", jobTitle := "Dev", status := .applied
        , emailSubject := some "unfortunately we went another way" } =
      StepOutcome.updated
        (analyzeJobWithAI
          { companyName := "Acme", jobTitle := "Dev", status := .applied
          , emailSubject := some "unfortunately we went another way" })
        (buildJobUpdates "2025-06-01T00:00:00.000Z"
          { companyName := "Acme", jobTitle := "Dev", status := .applied
          , emailSubject := some "unfortunately we went another way" }
          (analyzeJobWithAI
            { companyName := "Acme", jobTitle := "Dev", status := .applied
            , emailSubject := some "unfortunately we went another way" })) ∧
    "analysisReasoning" ∈ updatedFields
      (buildJobUpdates "2025-06-01T00:00:00.000Z"
        { companyName := "Acme", jobTitle := "Dev", status := .applied
        , emailSubject := some "unfortunately we went another way" }
        (analyzeJobWithAI
          { companyName := "Acme", jobTitle := "Dev", status := .applied
          , emailSubject := some "unfortunately we went another way" })) ∧
    (["status", "companyName", "jobTitle", "lastAnalyzed",
        "analysisMethod", "confidence"].contains "analysisReasoning")
      = false := by
  refine ⟨?_, ?_, ?_⟩
  · rfl
  · decide
  · decide

/-! ### C5: idempotence analysis of the normalizer

`cleanHtmlContent` is the identity on plain text (trimmed, single-spaced
ASCII alphanumeric strings): every matcher below fails on such strings
except the whitespace-collapse stage, which rewrites each single space
to itself.  Hence the normalizer is idempotent there.  It is not
idempotent in general: entity decoding can reconstruct markup that only
a second pass strips. -/

/-- `Char.ofNat` on a small scalar keeps its value. -/
theorem char_toNat_ofNat {n : Nat} (h : n < 55296) :
    (Char.ofNat n).toNat = n := by
  have hv : n.isValidChar := Or.inl h
  rw [Char.ofNat, dif_pos hv]
  rfl

/-- The code ranges of plain-text characters. -/
theorem isAlnumSpace_vals {c : Char} (h : isAlnumSpace c = true) :
    (48 ≤ c.toNat ∧ c.toNat ≤ 57) ∨ (65 ≤ c.toNat ∧ c.toNat ≤ 90) ∨
    (97 ≤ c.toNat ∧ c.toNat ≤ 122) ∨ c.toNat = 32 := by
  simp only [isAlnumSpace, isAsciiLetter, isAsciiUpper, isAsciiLower,
    isAsciiDigit, Bool.or_eq_true, Bool.and_eq_true, decide_eq_true_eq,
    beq_iff_eq] at h
  rcases h with ((⟨h1, h2⟩ | ⟨h1, h2⟩) | ⟨h1, h2⟩) | h1
  · exact Or.inr (Or.inl ⟨h1, h2⟩)
  · exact Or.inr (Or.inr (Or.inl ⟨h1, h2⟩))
  · exact Or.inl ⟨h1, h2⟩
  · exact Or.inr (Or.inr (Or.inr (by rw [h1]; rfl)))

/-- Codes in the lowercase-letter range are plain-text characters. -/
theorem isAlnumSpace_of_lower {c : Char}
    (h1 : 97 ≤ c.toNat) (h2 : c.toNat ≤ 122) :
    isAlnumSpace c = true := by
  simp only [isAlnumSpace, isAsciiLetter, isAsciiUpper, isAsciiLower,
    isAsciiDigit, Bool.or_eq_true, Bool.and_eq_true, decide_eq_true_eq,
    beq_iff_eq]
  exact Or.inl (Or.inl (Or.inr ⟨h1, h2⟩))

/-- ASCII lower-casing preserves plain-text membership. -/
theorem lowerChar_alnumspace {c : Char} (h : isAlnumSpace c = true) :
    isAlnumSpace (lowerChar c) = true := by
  unfold lowerChar
  by_cases hc : 65 ≤ c.toNat ∧ c.toNat ≤ 90
  · rw [if_pos hc]
    have ht : (Char.ofNat (c.toNat + 32)).toNat = c.toNat + 32 :=
      char_toNat_ofNat (by omega)
    exact isAlnumSpace_of_lower (by omega) (by omega)
  · rw [if_neg hc]
    exact h

/-- A pattern character outside the plain-text class matches no
lower-cased plain-text character. -/
theorem bad_pattern_char {p : List Char} {c : Char} (hm : c ∈ p)
    (hA : isAlnumSpace c = false) (hl : lowerChar c = c) :
    ∃ b ∈ p, ∀ d : Char, isAlnumSpace d = true → lowerChar d ≠ lowerChar b := by
  refine ⟨c, hm, fun d hd heq => ?_⟩
  rw [hl] at heq
  have hcl := lowerChar_alnumspace hd
  rw [heq] at hcl
  rw [hcl] at hA
  exact Bool.noConfusion hA

/-- A case-insensitive literal containing a character no plain-text
character can produce fails on plain-text input. -/
theorem litCI_none_of_bad :
    ∀ (p s : List Char), (∀ x ∈ s, isAlnumSpace x = true) →
    (∃ b ∈ p, ∀ d : Char, isAlnumSpace d = true → lowerChar d ≠ lowerChar b) →
    litCI p s = none := by
  intro p
  induction p with
  | nil =>
    intro s _ hbad
    rcases hbad with ⟨b, hb, _⟩
    exact absurd hb (List.not_mem_nil b)
  | cons c p ih =>
    intro s hs hbad
    cases s with
    | nil => rfl
    | cons d s2 =>
      unfold litCI
      by_cases heq : lowerChar d = lowerChar c
      · rw [if_pos heq]
        rcases hbad with ⟨b, hb, hprop⟩
        rcases List.mem_cons.mp hb with rfl | hb2
        · exact absurd heq (hprop d (hs d (List.mem_cons_self d s2)))
        · exact ih s2 (fun x hx => hs x (List.mem_cons_of_mem d hx))
            ⟨b, hb2, hprop⟩
      · rw [if_neg heq]

/-- A case-sensitive literal containing a non-plain-text character fails
on plain-text input. -/
theorem litCS_none_of_bad :
    ∀ (p s : List Char), (∀ x ∈ s, isAlnumSpace x = true) →
    (∃ b ∈ p, isAlnumSpace b = false) →
    litCS p s = none := by
  intro p
  induction p with
  | nil =>
    intro s _ hbad
    rcases hbad with ⟨b, hb, _⟩
    exact absurd hb (List.not_mem_nil b)
  | cons c p ih =>
    intro s hs hbad
    cases s with
    | nil => rfl
    | cons d s2 =>
      unfold litCS
      by_cases heq : d = c
      · rw [if_pos heq]
        rcases hbad with ⟨b, hb, hbprop⟩
        rcases List.mem_cons.mp hb with rfl | hb2
        · have := hs d (List.mem_cons_self d s2)
          rw [heq] at this
          rw [this] at hbprop
          exact Bool.noConfusion hbprop
        · exact ih s2 (fun x hx => hs x (List.mem_cons_of_mem d hx))
            ⟨b, hb2, hbprop⟩
      · rw [if_neg heq]

/-- The remainder of a successful case-insensitive literal match is made
of input characters. -/
theorem litCI_mem :
    ∀ (p s r : List Char), litCI p s = some r → ∀ x ∈ r, x ∈ s := by
  intro p
  induction p with
  | nil =>
    intro s r h x hx
    cases h
    exact hx
  | cons c p ih =>
    intro s r h x hx
    cases s with
    | nil => exact Option.noConfusion h
    | cons d s2 =>
      unfold litCI at h
      by_cases heq : lowerChar d = lowerChar c
      · rw [if_pos heq] at h
        exact List.mem_cons_of_mem d (ih s2 r h x hx)
      · rw [if_neg heq] at h
        exact Option.noConfusion h

/-- Characters surviving `dropWhile` come from the input. -/
theorem dropWhile_mem {q : Char → Bool} :
    ∀ (l : List Char) (x : Char), x ∈ l.dropWhile q → x ∈ l := by
  intro l
  induction l with
  | nil => intro x hx; exact hx
  | cons c cs ih =>
    intro x hx
    by_cases hc : q c = true
    · rw [List.dropWhile_cons_of_pos hc] at hx
      exact List.mem_cons_of_mem c (ih x hx)
    · rw [List.dropWhile_cons_of_neg hc] at hx
      exact hx

/-- A plain-text character other than a space is not regex
whitespace. -/
theorem isWsChar_false_of_alnum {c : Char} (h : isAlnumSpace c = true)
    (hsp : c ≠ ' ') : isWsChar c = false := by
  have hv := isAlnumSpace_vals h
  unfold isWsChar
  have h1 : (c == ' ') = false := beq_eq_false_iff_ne.mpr hsp
  have h2 : (c == '\t') = false :=
    beq_eq_false_iff_ne.mpr (fun he => by subst he; revert hv; decide)
  have h3 : (c == '\n') = false :=
    beq_eq_false_iff_ne.mpr (fun he => by subst he; revert hv; decide)
  have h4 : (c == '\r') = false :=
    beq_eq_false_iff_ne.mpr (fun he => by subst he; revert hv; decide)
  have h5 : (c == Char.ofNat 11) = false :=
    beq_eq_false_iff_ne.mpr (fun he => by subst he; revert hv; decide)
  have h6 : (c == Char.ofNat 12) = false :=
    beq_eq_false_iff_ne.mpr (fun he => by subst he; revert hv; decide)
  rw [h1, h2, h3, h4, h5, h6]
  rfl

/-- The generic fueled replace pass is the identity when the matcher
fails at every plain-text suffix. -/
theorem replaceWithF_id (m : List Char → Option (List Char))
    (rep : List Char)
    (hm : ∀ l : List Char, (∀ x ∈ l, isAlnumSpace x = true) → m l = none) :
    ∀ (f : Nat) (s : List Char), (∀ x ∈ s, isAlnumSpace x = true) →
      replaceWithF m rep f s = s := by
  intro f
  induction f with
  | zero => intro s _; rfl
  | succ f ih =>
    intro s hs
    cases s with
    | nil => rfl
    | cons c cs =>
      have h0 := hm (c :: cs) hs
      simp only [replaceWithF, h0]
      rw [ih cs (fun x hx => hs x (List.mem_cons_of_mem c hx))]

theorem replaceAll_id (m : List Char → Option (List Char))
    (rep : List Char) (s : List Char)
    (hm : ∀ l : List Char, (∀ x ∈ l, isAlnumSpace x = true) → m l = none)
    (hs : ∀ x ∈ s, isAlnumSpace x = true) :
    replaceAll m rep s = s :=
  replaceWithF_id m rep hm (s.length + 1) s hs

/-- Plain-text characters differ from any non-plain-text character. -/
theorem alnum_ne_bad {e b : Char} (he : isAlnumSpace e = true)
    (hb : isAlnumSpace b = false) : e ≠ b := by
  intro heq
  rw [heq] at he
  rw [he] at hb
  exact Bool.noConfusion hb

theorem mImport_none : ∀ l : List Char,
    (∀ x ∈ l, isAlnumSpace x = true) → mImport l = none := by
  intro l hl
  unfold mImport
  rw [litCS_none_of_bad _ l hl ⟨'@', by decide, by decide⟩]
  rfl

theorem mStyleBlock_none : ∀ l : List Char,
    (∀ x ∈ l, isAlnumSpace x = true) → mStyleBlock l = none := by
  intro l hl
  unfold mStyleBlock
  rw [litCI_none_of_bad _ l hl
    (bad_pattern_char (p := "<style".data) (c := '<') (by decide) (by decide) (by decide))]
  rfl

theorem mScript_none : ∀ l : List Char,
    (∀ x ∈ l, isAlnumSpace x = true) → mScript l = none := by
  intro l hl
  unfold mScript
  rw [litCI_none_of_bad _ l hl
    (bad_pattern_char (p := "<script".data) (c := '<') (by decide) (by decide) (by decide))]
  rfl

theorem mComment_none : ∀ l : List Char,
    (∀ x ∈ l, isAlnumSpace x = true) → mComment l = none := by
  intro l hl
  unfold mComment
  rw [litCS_none_of_bad _ l hl ⟨'<', by decide, by decide⟩]
  rfl

theorem mHead_none : ∀ l : List Char,
    (∀ x ∈ l, isAlnumSpace x = true) → mHead l = none := by
  intro l hl
  unfold mHead
  rw [litCI_none_of_bad _ l hl
    (bad_pattern_char (p := "<head".data) (c := '<') (by decide) (by decide) (by decide))]
  rfl

theorem mMeta_none : ∀ l : List Char,
    (∀ x ∈ l, isAlnumSpace x = true) → mMeta l = none := by
  intro l hl
  unfold mMeta
  rw [litCI_none_of_bad _ l hl
    (bad_pattern_char (p := "<meta".data) (c := '<') (by decide) (by decide) (by decide))]
  rfl

theorem mLinkTag_none : ∀ l : List Char,
    (∀ x ∈ l, isAlnumSpace x = true) → mLinkTag l = none := by
  intro l hl
  unfold mLinkTag
  rw [litCI_none_of_bad _ l hl
    (bad_pattern_char (p := "<link".data) (c := '<') (by decide) (by decide) (by decide))]
  rfl

theorem mBraces_none : ∀ l : List Char,
    (∀ x ∈ l, isAlnumSpace x = true) → mBraces l = none := by
  intro l hl
  cases l with
  | nil => rfl
  | cons c r =>
    have hne : c ≠ lbraceChar :=
      alnum_ne_bad (hl c (List.mem_cons_self c r)) (by decide)
    simp [mBraces, hne]

/-- The CSS-declaration matcher fails on plain text whenever its literal
holds a non-plain-text character that lower-cases to itself. -/
theorem mCssDecl_none (name : String)
    (hbad : ∃ b ∈ name.data, ∀ d : Char,
      isAlnumSpace d = true → lowerChar d ≠ lowerChar b) :
    ∀ l : List Char, (∀ x ∈ l, isAlnumSpace x = true) →
      mCssDecl name l = none := by
  intro l hl
  unfold mCssDecl
  rw [litCI_none_of_bad _ l hl hbad]
  rfl

theorem mStyleAttr_none : ∀ l : List Char,
    (∀ x ∈ l, isAlnumSpace x = true) → mStyleAttr l = none := by
  intro l hl
  unfold mStyleAttr
  cases hlit : litCI "style".data l with
  | none => rfl
  | some r =>
    have hr : ∀ x ∈ r, isAlnumSpace x = true :=
      fun x hx => hl x (litCI_mem "style".data l r hlit x hx)
    simp only [Option.some_bind]
    cases hdw : r.dropWhile isWsChar with
    | nil => rfl
    | cons e es =>
      have he : isAlnumSpace e = true := by
        refine hr e (dropWhile_mem (q := isWsChar) r e ?_)
        rw [hdw]
        exact List.mem_cons_self e es
      have hne : e ≠ '=' := alnum_ne_bad he (by decide)
      split
      · next r2 heq =>
          injection heq with h1 _
          exact absurd h1 hne
      · rfl

theorem mBr_none : ∀ l : List Char,
    (∀ x ∈ l, isAlnumSpace x = true) → mBr l = none := by
  intro l hl
  unfold mBr
  rw [litCI_none_of_bad _ l hl
    (bad_pattern_char (p := "<br".data) (c := '<') (by decide) (by decide) (by decide))]
  rfl

theorem mCloseP_none : ∀ l : List Char,
    (∀ x ∈ l, isAlnumSpace x = true) → mCloseP l = none := by
  intro l hl
  unfold mCloseP
  exact litCI_none_of_bad _ l hl
    (bad_pattern_char (p := "</p>".data) (c := '<') (by decide) (by decide) (by decide))

theorem mOpenP_none : ∀ l : List Char,
    (∀ x ∈ l, isAlnumSpace x = true) → mOpenP l = none := by
  intro l hl
  unfold mOpenP
  rw [litCI_none_of_bad _ l hl
    (bad_pattern_char (p := "<p".data) (c := '<') (by decide) (by decide) (by decide))]
  rfl

theorem mOpenDiv_none : ∀ l : List Char,
    (∀ x ∈ l, isAlnumSpace x = true) → mOpenDiv l = none := by
  intro l hl
  unfold mOpenDiv
  rw [litCI_none_of_bad _ l hl
    (bad_pattern_char (p := "<div".data) (c := '<') (by decide) (by decide) (by decide))]
  rfl

theorem mCloseDiv_none : ∀ l : List Char,
    (∀ x ∈ l, isAlnumSpace x = true) → mCloseDiv l = none := by
  intro l hl
  unfold mCloseDiv
  exact litCI_none_of_bad _ l hl
    (bad_pattern_char (p := "</div>".data) (c := '<') (by decide) (by decide) (by decide))

theorem mOpenH_none : ∀ l : List Char,
    (∀ x ∈ l, isAlnumSpace x = true) → mOpenH l = none := by
  intro l hl
  unfold mOpenH
  rw [litCI_none_of_bad _ l hl
    (bad_pattern_char (p := "<h".data) (c := '<') (by decide) (by decide) (by decide))]
  rfl

theorem mCloseH_none : ∀ l : List Char,
    (∀ x ∈ l, isAlnumSpace x = true) → mCloseH l = none := by
  intro l hl
  unfold mCloseH
  rw [litCI_none_of_bad _ l hl
    (bad_pattern_char (p := "</h".data) (c := '<') (by decide) (by decide) (by decide))]
  rfl

theorem mOpenLi_none : ∀ l : List Char,
    (∀ x ∈ l, isAlnumSpace x = true) → mOpenLi l = none := by
  intro l hl
  unfold mOpenLi
  rw [litCI_none_of_bad _ l hl
    (bad_pattern_char (p := "<li".data) (c := '<') (by decide) (by decide) (by decide))]
  rfl

theorem mCloseLi_none : ∀ l : List Char,
    (∀ x ∈ l, isAlnumSpace x = true) → mCloseLi l = none := by
  intro l hl
  unfold mCloseLi
  exact litCI_none_of_bad _ l hl
    (bad_pattern_char (p := "</li>".data) (c := '<') (by decide) (by decide) (by decide))

theorem mAnyTag_none : ∀ l : List Char,
    (∀ x ∈ l, isAlnumSpace x = true) → mAnyTag l = none := by
  intro l hl
  cases l with
  | nil => rfl
  | cons c r =>
    have hne : c ≠ '<' :=
      alnum_ne_bad (hl c (List.mem_cons_self c r)) (by decide)
    simp [mAnyTag, hne]

theorem mEntGeneric_none : ∀ l : List Char,
    (∀ x ∈ l, isAlnumSpace x = true) → mEntGeneric l = none := by
  intro l hl
  cases l with
  | nil => rfl
  | cons c r =>
    have hne : c ≠ '&' :=
      alnum_ne_bad (hl c (List.mem_cons_self c r)) (by decide)
    simp [mEntGeneric, hne]

theorem mNlWs_none : ∀ l : List Char,
    (∀ x ∈ l, isAlnumSpace x = true) → mNlWs l = none := by
  intro l hl
  unfold mNlWs
  split
  · next r =>
      exact absurd rfl
        (alnum_ne_bad (hl '\n' (List.mem_cons_self _ r)) (by decide))
  · rfl

theorem mNl3_none : ∀ l : List Char,
    (∀ x ∈ l, isAlnumSpace x = true) → mNl3 l = none := by
  intro l hl
  unfold mNl3
  cases l with
  | nil => rfl
  | cons c r =>
    have hc : (c == '\n') = false :=
      beq_eq_false_iff_ne.mpr
        (alnum_ne_bad (hl c (List.mem_cons_self c r)) (by decide))
    rw [List.takeWhile_cons_of_neg (by simp [hc])]
    rfl

theorem noDoubleSpace_tail {c : Char} {cs : List Char}
    (h : noDoubleSpace (c :: cs) = true) : noDoubleSpace cs = true := by
  cases cs with
  | nil => rfl
  | cons d ds =>
    unfold noDoubleSpace at h
    simp only [Bool.and_eq_true] at h
    exact h.2

/-- The whitespace-collapse stage maps each single space of a plain-text
string to a single space: it is the identity there. -/
theorem replaceWithF_wsRun_id :
    ∀ (f : Nat) (s : List Char), (∀ x ∈ s, isAlnumSpace x = true) →
      noDoubleSpace s = true → replaceWithF mWsRun [' '] f s = s := by
  intro f
  induction f with
  | zero => intro s _ _; rfl
  | succ f ih =>
    intro s hs hnd
    cases s with
    | nil => rfl
    | cons c cs =>
      by_cases hc : c = ' '
      · subst hc
        have hdw : cs.dropWhile isWsChar = cs := by
          cases cs with
          | nil => rfl
          | cons d ds =>
            have hd : d ≠ ' ' := by
              intro heq
              subst heq
              simp [noDoubleSpace] at hnd
            have hwd : isWsChar d = false :=
              isWsChar_false_of_alnum
                (hs d (List.mem_cons_of_mem _ (List.mem_cons_self d ds))) hd
            exact List.dropWhile_cons_of_neg (by simp [hwd])
        have hmatch : mWsRun (' ' :: cs) = some cs := by
          show (if isWsChar ' ' = true then some (cs.dropWhile isWsChar)
            else none) = some cs
          rw [if_pos (show isWsChar ' ' = true from rfl), hdw]
        simp only [replaceWithF, hmatch]
        rw [ih cs (fun x hx => hs x (List.mem_cons_of_mem _ hx))
          (noDoubleSpace_tail hnd)]
        rfl
      · have hw : isWsChar c = false :=
          isWsChar_false_of_alnum (hs c (List.mem_cons_self c cs)) hc
        have hmatch : mWsRun (c :: cs) = none := by
          show (if isWsChar c = true then some (cs.dropWhile isWsChar)
            else none) = none
          rw [if_neg (fun hcon => bool_tf_absurd hcon hw)]
        simp only [replaceWithF, hmatch]
        rw [ih cs (fun x hx => hs x (List.mem_cons_of_mem _ hx))
          (noDoubleSpace_tail hnd)]

theorem replaceAll_wsRun_id (s : List Char)
    (hs : ∀ x ∈ s, isAlnumSpace x = true) (hnd : noDoubleSpace s = true) :
    replaceAll mWsRun [' '] s = s :=
  replaceWithF_wsRun_id (s.length + 1) s hs hnd

/-- Trim is the identity on strings with no leading or trailing
space. -/
theorem trimL_id (l : List Char) (hA : ∀ x ∈ l, isAlnumSpace x = true)
    (hh : headNotSp l = true) (ht : headNotSp l.reverse = true) :
    trimL l = l := by
  unfold trimL
  have h1 : l.dropWhile isWsChar = l := by
    cases l with
    | nil => rfl
    | cons c cs =>
      have hc : c ≠ ' ' := by
        intro heq
        subst heq
        simp [headNotSp] at hh
      rw [List.dropWhile_cons_of_neg]
      simp [isWsChar_false_of_alnum (hA c (List.mem_cons_self c cs)) hc]
  rw [h1]
  have h2 : l.reverse.dropWhile isWsChar = l.reverse := by
    cases hrev : l.reverse with
    | nil => rfl
    | cons c cs =>
      have hcmem : c ∈ l := by
        rw [← List.mem_reverse, hrev]
        exact List.mem_cons_self c cs
      have hc : c ≠ ' ' := by
        intro heq
        subst heq
        rw [hrev] at ht
        simp [headNotSp] at ht
      rw [List.dropWhile_cons_of_neg]
      simp [isWsChar_false_of_alnum (hA c hcmem) hc]
  rw [h2, List.reverse_reverse]

/-- On plain text every stage of the normalizer is the identity. -/
theorem cleanHtmlContent_plain_id (s : String) (h : plainTextStr s = true) :
    cleanHtmlContent s = s := by
  have hparts := h
  simp only [plainTextStr, Bool.and_eq_true] at hparts
  obtain ⟨⟨⟨hall, hnd⟩, hh⟩, ht⟩ := hparts
  have hA : ∀ x ∈ s.data, isAlnumSpace x = true := by
    intro x hx
    exact List.all_eq_true.mp hall x hx
  by_cases hempty : s = ""
  · rw [hempty]
    rfl
  · simp only [cleanHtmlContent, if_neg hempty]
    rw [replaceAll_id mImport [] s.data mImport_none hA]
    rw [replaceAll_id mStyleBlock [] s.data mStyleBlock_none hA]
    rw [replaceAll_id mStyleAttr [] s.data mStyleAttr_none hA]
    rw [replaceAll_id mScript [] s.data mScript_none hA]
    rw [replaceAll_id mComment [] s.data mComment_none hA]
    rw [replaceAll_id mHead [] s.data mHead_none hA]
    rw [replaceAll_id mMeta [] s.data mMeta_none hA]
    rw [replaceAll_id mLinkTag [] s.data mLinkTag_none hA]
    rw [replaceAll_id mBraces [] s.data mBraces_none hA]
    rw [replaceAll_id (mCssDecl "font-family:") [] s.data
      (mCssDecl_none _
        (bad_pattern_char (c := '-') (by decide) (by decide) (by decide))) hA]
    rw [replaceAll_id (mCssDecl "color:") [] s.data
      (mCssDecl_none _
        (bad_pattern_char (c := ':') (by decide) (by decide) (by decide))) hA]
    rw [replaceAll_id (mCssDecl "margin:") [] s.data
      (mCssDecl_none _
        (bad_pattern_char (c := ':') (by decide) (by decide) (by decide))) hA]
    rw [replaceAll_id (mCssDecl "padding:") [] s.data
      (mCssDecl_none _
        (bad_pattern_char (c := ':') (by decide) (by decide) (by decide))) hA]
    rw [replaceAll_id (mCssDecl "width:") [] s.data
      (mCssDecl_none _
        (bad_pattern_char (c := ':') (by decide) (by decide) (by decide))) hA]
    rw [replaceAll_id (mCssDecl "height:") [] s.data
      (mCssDecl_none _
        (bad_pattern_char (c := ':') (by decide) (by decide) (by decide))) hA]
    rw [replaceAll_id (mCssDecl "-webkit-") [] s.data
      (mCssDecl_none _
        (bad_pattern_char (c := '-') (by decide) (by decide) (by decide))) hA]
    rw [replaceAll_id (mCssDecl "-ms-") [] s.data
      (mCssDecl_none _
        (bad_pattern_char (c := '-') (by decide) (by decide) (by decide))) hA]
    rw [replaceAll_id (mCssDecl "mso-") [] s.data
      (mCssDecl_none _
        (bad_pattern_char (c := '-') (by decide) (by decide) (by decide))) hA]
    rw [replaceAll_id mBr ['\n'] s.data mBr_none hA]
    rw [replaceAll_id mCloseP ['\n', '\n'] s.data mCloseP_none hA]
    rw [replaceAll_id mOpenP [] s.data mOpenP_none hA]
    rw [replaceAll_id mOpenDiv [] s.data mOpenDiv_none hA]
    rw [replaceAll_id mCloseDiv ['\n'] s.data mCloseDiv_none hA]
    rw [replaceAll_id mOpenH ['\n'] s.data mOpenH_none hA]
    rw [replaceAll_id mCloseH ['\n', '\n'] s.data mCloseH_none hA]
    rw [replaceAll_id mOpenLi [bulletChar, ' '] s.data mOpenLi_none hA]
    rw [replaceAll_id mCloseLi ['\n'] s.data mCloseLi_none hA]
    rw [replaceAll_id mAnyTag [' '] s.data mAnyTag_none hA]
    rw [replaceAll_id (litCI "&nbsp;".data) [' '] s.data
      (fun l hl => litCI_none_of_bad _ l hl
        (bad_pattern_char (c := '&') (by decide) (by decide) (by decide))) hA]
    rw [replaceAll_id (litCI "&amp;".data) ['&'] s.data
      (fun l hl => litCI_none_of_bad _ l hl
        (bad_pattern_char (c := '&') (by decide) (by decide) (by decide))) hA]
    rw [replaceAll_id (litCI "&lt;".data) ['<'] s.data
      (fun l hl => litCI_none_of_bad _ l hl
        (bad_pattern_char (c := '&') (by decide) (by decide) (by decide))) hA]
    rw [replaceAll_id (litCI "&gt;".data) ['>'] s.data
      (fun l hl => litCI_none_of_bad _ l hl
        (bad_pattern_char (c := '&') (by decide) (by decide) (by decide))) hA]
    rw [replaceAll_id (litCI "&quot;".data) ['"'] s.data
      (fun l hl => litCI_none_of_bad _ l hl
        (bad_pattern_char (c := '&') (by decide) (by decide) (by decide))) hA]
    rw [replaceAll_id (litCI "&#39;".data) [aposChar] s.data
      (fun l hl => litCI_none_of_bad _ l hl
        (bad_pattern_char (c := '&') (by decide) (by decide) (by decide))) hA]
    rw [replaceAll_id mEntGeneric [] s.data mEntGeneric_none hA]
    rw [replaceAll_wsRun_id s.data hA hnd]
    rw [replaceAll_id mNlWs ['\n'] s.data mNlWs_none hA]
    rw [replaceAll_id mNl3 ['\n', '\n'] s.data mNl3_none hA]
    rw [trimL_id s.data hA hh ht]

/-- C5 (amended): the text normalizer is not idempotent in general —
entity decoding can reconstruct markup that only a second pass strips —
but it is idempotent on plain text (trimmed, single-spaced ASCII
alphanumeric strings), where it acts as the identity. -/
theorem C5_plaintext_idempotent (s : String) (h : plainTextStr s = true) :
    cleanHtmlContent s = s ∧
    cleanHtmlContent (cleanHtmlContent s) = cleanHtmlContent s := by
  have hid := cleanHtmlContent_plain_id s h
  refine ⟨hid, ?_⟩
  rw [hid]
  exact hid

/-- C5 witness: a concrete plain-text string is a fixed point of the
normalizer, hence idempotent there. -/
theorem C5_plaintext_idempotent_witness :
    cleanHtmlContent "Senior engineer at Acme 42" =
      "Senior engineer at Acme 42" ∧
    cleanHtmlContent (cleanHtmlContent "Senior engineer at Acme 42") =
      cleanHtmlContent "Senior engineer at Acme 42" :=
  C5_plaintext_idempotent "Senior engineer at Acme 42" (by decide)

/-- C5 counterexample: entity-encoded markup breaks idempotence: one
pass decodes the entities into a tag, a second pass strips the tag. -/
theorem C5_entity_markup_not_idempotent :
    cleanHtmlContent "&lt;b&gt;" = "<b>" ∧
    cleanHtmlContent (cleanHtmlContent "&lt;b&gt;") = "" ∧
    cleanHtmlContent (cleanHtmlContent "&lt;b&gt;") ≠
      cleanHtmlContent "&lt;b&gt;" := by
  refine ⟨by decide, by decide, by decide⟩

/-! ### C6: the company extractor and its generic-term filter -/

/-- Any successful engine run obtains its value from the
continuation. -/
theorem rxRun_origin :
    ∀ (fuel : Nat) (r : Rx) (s : List Char) (cap : Option (List Char))
      (k : List Char → Option (List Char) → Option (List Char))
      (v : List Char),
      rxRun fuel r s cap k = some v → ∃ s2 c2, k s2 c2 = some v := by
  intro fuel
  induction fuel with
  | zero =>
    intro r s cap k v h
    exact Option.noConfusion h
  | succ f ih =>
    intro r s cap k v h
    cases r with
    | eps => exact ⟨s, cap, h⟩
    | lit p =>
      simp only [rxRun] at h
      cases hl : litCI p s with
      | some rest =>
        rw [hl] at h
        exact ⟨rest, cap, h⟩
      | none =>
        rw [hl] at h
        exact Option.noConfusion h
    | cls p =>
      simp only [rxRun] at h
      cases s with
      | nil => exact Option.noConfusion h
      | cons c cs =>
        have h2 : (if p c = true then k cs cap else none) = some v := h
        by_cases hp : p c = true
        · rw [if_pos hp] at h2
          exact ⟨cs, cap, h2⟩
        · rw [if_neg hp] at h2
          exact Option.noConfusion h2
    | seq a b =>
      simp only [rxRun] at h
      obtain ⟨s2, c2, h2⟩ := ih _ _ _ _ _ h
      exact ih _ _ _ _ _ h2
    | alt a b =>
      simp only [rxRun] at h
      cases hA : rxRun f a s cap k with
      | some w =>
        rw [hA] at h
        injection h with hw
        subst hw
        exact ih _ _ _ _ _ hA
      | none =>
        rw [hA] at h
        exact ih _ _ _ _ _ h
    | opt a =>
      simp only [rxRun] at h
      cases hA : rxRun f a s cap k with
      | some w =>
        rw [hA] at h
        injection h with hw
        subst hw
        exact ih _ _ _ _ _ hA
      | none =>
        rw [hA] at h
        exact ⟨s, cap, h⟩
    | starG a =>
      simp only [rxRun] at h
      cases hA : rxRun f a s cap (fun s2 c2 =>
          if s2.length < s.length then rxRun f (.starG a) s2 c2 k
          else none) with
      | some w =>
        rw [hA] at h
        injection h with hw
        subst hw
        obtain ⟨s2, c2, h2⟩ := ih _ _ _ _ _ hA
        by_cases hlen : s2.length < s.length
        · rw [if_pos hlen] at h2
          exact ih _ _ _ _ _ h2
        · rw [if_neg hlen] at h2
          exact Option.noConfusion h2
      | none =>
        rw [hA] at h
        exact ⟨s, cap, h⟩
    | starL a =>
      simp only [rxRun] at h
      cases hK : k s cap with
      | some w =>
        rw [hK] at h
        injection h with hw
        subst hw
        exact ⟨s, cap, hK⟩
      | none =>
        rw [hK] at h
        obtain ⟨s2, c2, h2⟩ := ih _ _ _ _ _ h
        by_cases hlen : s2.length < s.length
        · rw [if_pos hlen] at h2
          exact ih _ _ _ _ _ h2
        · rw [if_neg hlen] at h2
          exact Option.noConfusion h2
    | grp a =>
      simp only [rxRun] at h
      obtain ⟨s2, c2, h2⟩ := ih _ _ _ _ _ h
      exact ⟨s2, some (s.take (s.length - s2.length)), h2⟩
    | endA =>
      simp only [rxRun] at h
      cases s with
      | nil => exact ⟨[], cap, h⟩
      | cons c cs => exact Option.noConfusion h

/-- The company capture classes are inside the cleaning keep-set. -/
theorem keep_of_companyFirst {c : Char} (h : companyFirstChar c = true) :
    keepCompanyChar c = true := by
  simp only [companyFirstChar] at h
  simp only [keepCompanyChar, isWordChar, Bool.or_eq_true]
  tauto

theorem keep_of_companyMore {c : Char} (h : companyMoreChar c = true) :
    keepCompanyChar c = true := by
  simp only [companyMoreChar, Bool.or_eq_true] at h
  simp only [keepCompanyChar, isWordChar, Bool.or_eq_true]
  tauto

/-- Characters collected by the lazy capture loop are capture-class
characters. -/
theorem companyCapLoop_chars (fuel : Nat) (term : Rx) :
    ∀ (s acc v : List Char),
      companyCapLoop fuel term acc s = some v →
      (∀ x ∈ acc, keepCompanyChar x = true) →
      ∀ x ∈ v, keepCompanyChar x = true := by
  intro s
  induction s with
  | nil =>
    intro acc v h _
    exact Option.noConfusion h
  | cons d ds ih =>
    intro acc v h hacc
    unfold companyCapLoop at h
    by_cases hm : companyMoreChar d = true
    · rw [if_pos hm] at h
      have hd := keep_of_companyMore hm
      have hext : ∀ x ∈ acc ++ [d], keepCompanyChar x = true := by
        intro x hx
        rcases List.mem_append.mp hx with hx | hx
        · exact hacc x hx
        · rw [List.mem_singleton.mp hx]
          exact hd
      by_cases ht : termMatches fuel term ds = true
      · rw [if_pos ht] at h
        injection h with hv
        subst hv
        exact hext
      · rw [if_neg ht] at h
        exact ih (acc ++ [d]) v h hext
    · rw [if_neg hm] at h
      exact Option.noConfusion h

theorem companyCapTerm_chars (fuel : Nat) (term : Rx) (s v : List Char)
    (h : companyCapTerm fuel term s = some v) :
    ∀ x ∈ v, keepCompanyChar x = true := by
  cases s with
  | nil => exact Option.noConfusion h
  | cons c cs =>
    have h2 : (if companyFirstChar c = true then
        companyCapLoop fuel term [c] cs else none) = some v := h
    by_cases hf : companyFirstChar c = true
    · rw [if_pos hf] at h2
      exact companyCapLoop_chars fuel term cs [c] v h2
        (fun x hx => by
          rw [List.mem_singleton.mp hx]
          exact keep_of_companyFirst hf)
    · rw [if_neg hf] at h2
      exact Option.noConfusion h2

theorem matchCompanyAt_chars (fuel : Nat) (p : CompanyPat) (s v : List Char)
    (h : matchCompanyAt fuel p s = some v) :
    ∀ x ∈ v, keepCompanyChar x = true := by
  unfold matchCompanyAt at h
  obtain ⟨s2, c2, h2⟩ := rxRun_origin _ _ _ _ _ _ h
  exact companyCapTerm_chars fuel p.term s2 v h2

theorem scanCompanyPat_chars (fuel : Nat) (p : CompanyPat) :
    ∀ (s v : List Char), scanCompanyPat fuel p s = some v →
      ∀ x ∈ v, keepCompanyChar x = true := by
  intro s
  induction s with
  | nil =>
    intro v h
    exact matchCompanyAt_chars fuel p [] v h
  | cons c cs ih =>
    intro v h
    unfold scanCompanyPat at h
    cases hm : matchCompanyAt fuel p (c :: cs) with
    | some w =>
      rw [hm] at h
      injection h with hw
      exact hw ▸ matchCompanyAt_chars fuel p (c :: cs) w hm
    | none =>
      rw [hm] at h
      exact ih v h

/-- Two characters with equal scalar values are equal. -/
theorem uint32_eq_of_toNat {a b : UInt32} (h : a.toNat = b.toNat) : a = b := by
  cases a
  cases b
  congr 1
  exact BitVec.eq_of_toNat_eq h

theorem char_eq_of_toNat {a b : Char} (h : a.toNat = b.toNat) : a = b :=
  Char.eq_of_val_eq (uint32_eq_of_toNat h)

theorem char_ofNat_toNat {c : Char} (h : c.toNat < 55296) :
    Char.ofNat c.toNat = c :=
  char_eq_of_toNat (char_toNat_ofNat h)

/-- Lower-casing after upper-casing is plain lower-casing. -/
theorem lowerChar_upperChar (c : Char) :
    lowerChar (upperChar c) = lowerChar c := by
  unfold upperChar
  by_cases hc : 97 ≤ c.toNat ∧ c.toNat ≤ 122
  · rw [if_pos hc]
    have ht : (Char.ofNat (c.toNat - 32)).toNat = c.toNat - 32 :=
      char_toNat_ofNat (by omega)
    unfold lowerChar
    rw [ht, if_pos (show 65 ≤ c.toNat - 32 ∧ c.toNat - 32 ≤ 90 by omega),
      if_neg (show ¬(65 ≤ c.toNat ∧ c.toNat ≤ 90) by omega),
      show c.toNat - 32 + 32 = c.toNat by omega]
    exact char_ofNat_toNat (by omega)
  · rw [if_neg hc]

theorem lowerChar_idem (c : Char) : lowerChar (lowerChar c) = lowerChar c := by
  by_cases hc : 65 ≤ c.toNat ∧ c.toNat ≤ 90
  · have h1 : lowerChar c = Char.ofNat (c.toNat + 32) := by
      unfold lowerChar
      rw [if_pos hc]
    rw [h1]
    have ht : (Char.ofNat (c.toNat + 32)).toNat = c.toNat + 32 :=
      char_toNat_ofNat (by omega)
    unfold lowerChar
    rw [ht, if_neg (show ¬(65 ≤ c.toNat + 32 ∧ c.toNat + 32 ≤ 90) by omega)]
  · have h1 : lowerChar c = c := by
      unfold lowerChar
      rw [if_neg hc]
    rw [h1]
    exact h1

theorem lowerL_idem (l : List Char) : lowerL (lowerL l) = lowerL l := by
  unfold lowerL
  rw [List.map_map]
  exact List.map_congr_left (fun c _ => lowerChar_idem c)

theorem lowerL_append (a b : List Char) :
    lowerL (a ++ b) = lowerL a ++ lowerL b :=
  List.map_append lowerChar a b

/-- Lower-casing a capitalised word is lower-casing the word. -/
theorem lowerL_capWordL (w : List Char) : lowerL (capWordL w) = lowerL w := by
  cases w with
  | nil => rfl
  | cons c t =>
    show lowerChar (upperChar c) :: lowerL (lowerL t) = lowerChar c :: lowerL t
    rw [lowerChar_upperChar, lowerL_idem]

/-- Lower-casing commutes with joining on a space. -/
theorem lowerL_joinWith (ws : List (List Char)) :
    lowerL (joinWith ' ' ws) = joinWith ' ' (ws.map lowerL) := by
  induction ws with
  | nil => rfl
  | cons w ws ih =>
    cases ws with
    | nil => rfl
    | cons w2 ws2 =>
      show lowerL (w ++ ' ' :: joinWith ' ' (w2 :: ws2)) =
        lowerL w ++ ' ' :: joinWith ' ' (List.map lowerL (w2 :: ws2))
      rw [lowerL_append]
      show lowerL w ++ ' ' :: lowerL (joinWith ' ' (w2 :: ws2)) = _
      rw [ih]

theorem splitChar_ne_nil (sep : Char) : ∀ l : List Char,
    splitChar sep l ≠ [] := by
  intro l
  cases l with
  | nil => exact fun hc => List.noConfusion hc
  | cons c t =>
    show (match splitChar sep t with
      | [] => [[]]
      | w :: ws => if c = sep then [] :: w :: ws else (c :: w) :: ws) ≠ []
    cases splitChar sep t with
    | nil => exact fun hc => List.noConfusion hc
    | cons w ws =>
      show (if c = sep then [] :: w :: ws else (c :: w) :: ws) ≠ []
      by_cases h : c = sep
      · rw [if_pos h]
        exact fun hc => List.noConfusion hc
      · rw [if_neg h]
        exact fun hc => List.noConfusion hc

theorem joinWith_cons_head (sep c : Char) (w : List Char) :
    ∀ ws : List (List Char),
      joinWith sep ((c :: w) :: ws) = c :: joinWith sep (w :: ws) := by
  intro ws
  cases ws with
  | nil => rfl
  | cons w2 ws2 => rfl

/-- Joining the fields of a split reconstructs the list. -/
theorem joinWith_splitChar (sep : Char) : ∀ l : List Char,
    joinWith sep (splitChar sep l) = l := by
  intro l
  induction l with
  | nil => rfl
  | cons c t ih =>
    show joinWith sep (match splitChar sep t with
      | [] => [[]]
      | w :: ws => if c = sep then [] :: w :: ws else (c :: w) :: ws) = c :: t
    cases hsp : splitChar sep t with
    | nil => exact absurd hsp (splitChar_ne_nil sep t)
    | cons w ws =>
      rw [hsp] at ih
      show joinWith sep (if c = sep then [] :: w :: ws else (c :: w) :: ws) =
        c :: t
      by_cases h : c = sep
      · rw [if_pos h]
        show sep :: joinWith sep (w :: ws) = c :: t
        rw [ih, h]
      · rw [if_neg h, joinWith_cons_head, ih]

/-- Lower-casing absorbs the title-casing step of the company cleaner. -/
theorem lowerL_titleCaseL (l : List Char) :
    lowerL (titleCaseL l) = lowerL l := by
  unfold titleCaseL
  rw [lowerL_joinWith, List.map_map]
  have hc : List.map (lowerL ∘ capWordL) (splitChar ' ' l) =
      List.map lowerL (splitChar ' ' l) :=
    List.map_congr_left (fun w _ => lowerL_capWordL w)
  rw [hc, ← lowerL_joinWith, joinWith_splitChar]

/-- `subAt` is list-prefix. -/
theorem subAt_iff : ∀ p s : List Char, subAt p s = true ↔ p <+: s := by
  intro p
  induction p with
  | nil =>
    intro s
    simp [subAt]
  | cons c p ih =>
    intro s
    cases s with
    | nil =>
      constructor
      · intro h
        exact Bool.noConfusion h
      · intro h
        have hlen := h.length_le
        simp at hlen
    | cons d s =>
      show (if c = d then subAt p s else false) = true ↔ c :: p <+: d :: s
      by_cases h : c = d
      · rw [if_pos h]
        subst h
        rw [ih s]
        constructor
        · intro hp
          exact List.cons_prefix_cons.mpr ⟨rfl, hp⟩
        · intro hp
          exact (List.cons_prefix_cons.mp hp).2
      · rw [if_neg h]
        constructor
        · intro hb
          exact Bool.noConfusion hb
        · intro hp
          exact absurd (List.cons_prefix_cons.mp hp).1 h

/-- `hasSub` is list-infix: the `includes` semantics. -/
theorem hasSub_iff (p : List Char) : ∀ s : List Char,
    hasSub p s = true ↔ p <:+: s := by
  intro s
  induction s with
  | nil =>
    show subAt p [] = true ↔ p <:+: []
    rw [subAt_iff, List.prefix_nil, List.infix_nil]
  | cons c s ih =>
    show (subAt p (c :: s) || hasSub p s) = true ↔ p <:+: c :: s
    rw [Bool.or_eq_true, subAt_iff, ih, List.infix_cons_iff]

theorem trimL_mem {x : Char} {l : List Char} (h : x ∈ trimL l) : x ∈ l := by
  unfold trimL at h
  rw [List.mem_reverse] at h
  have h2 := dropWhile_mem (q := isWsChar) _ x h
  rw [List.mem_reverse] at h2
  exact dropWhile_mem (q := isWsChar) l x h2

/-- Trimming yields an infix of the original list. -/
theorem trimL_infix_self (l : List Char) : trimL l <:+: l := by
  have h1 : l.dropWhile isWsChar <:+ l := List.dropWhile_suffix _
  have h2 : (l.dropWhile isWsChar).reverse.dropWhile isWsChar <:+
      (l.dropWhile isWsChar).reverse := List.dropWhile_suffix _
  have h3 := List.reverse_prefix.mpr h2
  rw [List.reverse_reverse] at h3
  exact h3.isInfix.trans h1.isInfix

/-- A capture whose characters are all in the keep-set and that passes
the stage-2 filters carries no generic term as a substring of its
lower-casing. -/
theorem stage2Filters_not_generic (rawCap : List Char) (r : String)
    (hk : ∀ x ∈ rawCap, keepCompanyChar x = true)
    (hres : stage2Filters rawCap = some r) :
    ∀ t ∈ companyGenericTerms, strIncludes (jsToLower r) t = false := by
  simp only [stage2Filters] at hres
  split at hres
  case isFalse => exact Option.noConfusion hres
  case isTrue hcond =>
    split at hres
    case isFalse => exact Option.noConfusion hres
    case isTrue hcond2 =>
      injection hres with hr
      subst hr
      intro t ht
      have hfilter : List.filter keepCompanyChar (trimL rawCap) =
          trimL rawCap :=
        List.filter_eq_self.mpr (fun a ha => hk a (trimL_mem ha))
      show hasSub t.data
        (lowerL (titleCaseL (trimL (List.filter keepCompanyChar
          (trimL rawCap))))) = false
      rw [hfilter, lowerL_titleCaseL]
      cases hX : hasSub t.data (lowerL (trimL (trimL rawCap))) with
      | false => rfl
      | true =>
        exfalso
        have hinf : t.data <:+: lowerL (trimL (trimL rawCap)) :=
          (hasSub_iff _ _).mp hX
        have hstep : lowerL (trimL (trimL rawCap)) <:+:
            lowerL (trimL rawCap) :=
          (trimL_infix_self (trimL rawCap)).map lowerChar
        have hsubst : hasSub t.data (lowerL (trimL rawCap)) = true :=
          (hasSub_iff _ _).mpr (hinf.trans hstep)
        have hany : companyGenericTerms.any (fun t2 =>
            hasSub t2.data (lowerL (trimL rawCap)) ||
            lowerL (trimL rawCap) = t2.data) = true :=
          List.any_eq_true.mpr ⟨t, ht, by rw [hsubst]; rfl⟩
        exact hcond.1 hany

/-- Every value produced by the pattern loop is free of generic terms. -/
theorem companyPatternsLoop_not_generic :
    ∀ (ps : List CompanyPat) (txt : List Char) (r : String),
      companyPatternsLoop ps txt = some r →
      ∀ t ∈ companyGenericTerms, strIncludes (jsToLower r) t = false := by
  intro ps
  induction ps with
  | nil =>
    intro txt r h
    exact Option.noConfusion h
  | cons p ps ih =>
    intro txt r h
    unfold companyPatternsLoop at h
    cases hscan : scanCompanyPat (rxFuel txt) p txt with
    | none =>
      rw [hscan] at h
      exact ih txt r h
    | some rawCap =>
      rw [hscan] at h
      have h2 : (if rawCap.isEmpty = true then companyPatternsLoop ps txt
          else match stage2Filters rawCap with
            | some r0 => some r0
            | none => companyPatternsLoop ps txt) = some r := h
      by_cases hemp : rawCap.isEmpty = true
      · rw [if_pos hemp] at h2
        exact ih txt r h2
      · rw [if_neg hemp] at h2
        cases hfil : stage2Filters rawCap with
        | none =>
          rw [hfil] at h2
          exact ih txt r h2
        | some r0 =>
          rw [hfil] at h2
          injection h2 with hr
          subst hr
          exact stage2Filters_not_generic rawCap r0
            (scanCompanyPat_chars (rxFuel txt) p txt rawCap hscan) hfil

/-- C6 counterexample: the sender-domain stage has no generic-term
filter, so `extractCompany("hr@team.com")` returns "Team", which is
(case-insensitively) the generic term "team" of the exclusion list.
The claimed exclusion therefore does not hold across all three stages. -/
theorem C6_domain_stage_generic :
    extractCompany "hr@team.com" "" "" = some "Team" ∧
    jsToLower "Team" = "team" ∧
    "team" ∈ companyGenericTerms :=
  ⟨by decide, by decide, by decide⟩

/-- C6 (amended): the generic-term exclusion is real but belongs to the
body/subject pattern stage only: whenever the sender-domain stage and
the display-name stage both fail and `extractCompany` still returns a
company (so the value comes from the pattern stage), the returned value
never contains — hence never equals — any term of the generic exclusion
list, case-insensitively.  (`fromAddr` renders the source's `from`.) -/
theorem C6_pattern_stage_no_generic (fromAddr body subject r : String)
    (hdom : extractCompanyDomain fromAddr = none)
    (hname : extractCompanyFromName fromAddr = none)
    (hres : extractCompany fromAddr body subject = some r) :
    ∀ t ∈ companyGenericTerms, strIncludes (jsToLower r) t = false := by
  unfold extractCompany at hres
  rw [hdom] at hres
  have h2 : (match companyPatternsLoop companyPatterns
      ((subject ++ " " ++ body).data) with
    | some c => some c
    | none => extractCompanyFromName fromAddr) = some r := hres
  cases hloop : companyPatternsLoop companyPatterns
      ((subject ++ " " ++ body).data) with
  | some c =>
    rw [hloop] at h2
    have h3 : some c = some r := h2
    injection h3 with hc
    subst hc
    exact companyPatternsLoop_not_generic companyPatterns
      ((subject ++ " " ++ body).data) c hloop
  | none =>
    rw [hloop] at h2
    have h3 : extractCompanyFromName fromAddr = some r := h2
    rw [hname] at h3
    exact Option.noConfusion h3

/-- C6 witness: a concrete pattern-stage extraction ("Acme" from
"Acme Inc. welcomes you") satisfies the amended theorem's hypotheses,
and its value does not contain the generic term "team". -/
theorem C6_pattern_stage_no_generic_witness :
    strIncludes (jsToLower "Acme") "team" = false :=
  C6_pattern_stage_no_generic "noreply@gmail.com" "Acme Inc. welcomes you"
    "" "Acme" (by decide) (by decide) (by decide) "team" (by decide)

end JobTracker
